import Mathlib

/-!
Shallow embedding of `rlkit/core/rl_algorithm.py` (class `RLAlgorithm`),
the training-loop orchestrator of the repository.

Modelling conventions:

* The orchestrator's mutable attributes become the fields of `AlgoState`;
  every method becomes a function that threads this state explicitly.
* External collaborators are opaque: the environment and the exploration
  policy are records of transition functions over `Nat`-coded internal
  states, observations and actions; the abstract `_do_training` update of
  the concrete algorithm subclass is a parameter `doTr` acting on the
  opaque `inner` component of the state, returning `none` when the update
  raises.
* Observable actions on external sinks (environment steps, `_do_training`
  invocations, checkpoint saves, tabular dumps, ...) are recorded in an
  `Event` trace so that scheduling claims can be stated as trace equalities.
* Python exceptions are modelled with `Except`; the error value carries the
  orchestrator state and the events emitted up to the raise point.
* The replay buffer is not part of `src/`; following the spec it is
  modelled by its contract only: `bufferCount` is the readiness count
  reported by `num_steps_can_sample()` (one ingested transition increments
  it, saturating at the configured capacity) and `bufferEpisodes` counts
  `terminate_episode()` notifications.
* Wall-clock timing, logging text, rendering and the `gtimer` stamps are
  pure I/O with no influence on control flow other than the reported
  table (abstracted by the `keys` oracle), and are not modelled.
-/

/-- Observable side effects of the orchestrator, recorded as a trace. -/
inductive Event where
  | envStep : Event
  | trainAttempt : Event
  | doTrainingCall : Event
  | rolloutEnded : Event
  | evalRan : Event
  | dumpTabular : Event
  | saveExtraData : Nat → Event
  | saveItrParams : Int → Event
  deriving DecidableEq, Repr

/-- Residency of the trainable components: `torch.device("cpu")` or
`torch.device("cuda:<id>")`, as moved by `self.to(device=...)`. -/
inductive Device where
  | cpu : Device
  | gpu : Nat → Device
  deriving DecidableEq, Repr

/-- One transition record, as passed to `_handle_step`.  The `agent_info`,
`env_info` and `mask` payloads are opaque data never read by the
orchestrator's control flow and are omitted. -/
structure Transition where
  observation : Nat
  action : Nat
  reward : Int
  nextObservation : Nat
  terminal : Bool
  deriving DecidableEq, Repr

/-- The process context: whether the `mpi4py` import succeeded
(`MPI is not None`) and this process's `MPI.COMM_WORLD.Get_rank()`. -/
structure RunContext where
  mpiAvailable : Bool
  rank : Nat
  deriving DecidableEq, Repr

/-- External environment contract: `reset() -> observation` and
`step(action) -> (next_observation, raw_reward, terminal, env_info)`,
as functions of an opaque internal environment state. -/
structure Env where
  reset : Nat → Nat × Nat
  step : Nat → Nat → Nat × Nat × Int × Bool

/-- External exploration-policy contract: `reset()`, and
`set_num_steps_total(n)` followed by `get_action(observation)`, combined
into one function of the policy's opaque state. -/
structure Policy where
  reset : Nat → Nat
  getAction : Nat → Nat → Nat → Nat × Nat

/-- The configuration resolved by `RLAlgorithm.__init__` and fixed for the
run.  `ptuMode` is the value of `ptu.get_mode()` (the empty string standing
for a falsy/unset mode); `batch_size` and `discount` are forwarded to the
concrete algorithm and never read by the orchestrator, so they are
omitted. -/
structure Config where
  collectionMode : String
  numEpochs : Nat
  numEnvStepsPerEpoch : Nat
  numStepsPerEval : Nat
  numUpdatesPerTrainCall : Nat
  maxPathLength : Nat
  replayBufferSize : Nat
  rewardScale : Int
  minNumStepsBeforeTraining : Nat
  saveExtraDataInterval : Nat
  numEpochsPerEval : Nat
  numEpochsPerParamSave : Nat
  ptuMode : String
  gpuId : Nat
  deriving DecidableEq, Repr

/-- The orchestrator's mutable attributes.  `inner` is the opaque state of
the concrete algorithm subclass (whatever `_do_training` mutates);
`bufferCount` / `bufferEpisodes` are the replay buffer's externally
visible contract (see the module comment); `device` is where the
trainable components currently reside. -/
structure AlgoState where
  envState : Nat
  polState : Nat
  inner : Nat
  nEnvStepsTotal : Nat
  nTrainStepsTotal : Nat
  nRolloutsTotal : Nat
  doTrainTime : Nat
  currentPathBuilder : List Transition
  explorationPaths : List (List Transition)
  bufferCount : Nat
  bufferEpisodes : Nat
  needToUpdateEvalStatistics : Bool
  oldTableKeys : Option (Finset String)
  device : Device
  trainingMode : Bool
  deriving DecidableEq

/-- The keyword arguments of `RLAlgorithm.__init__` that the orchestrator
itself consumes, with the Python defaults. -/
structure InitArgs where
  collectionMode : String := "online"
  numEpochs : Nat := 100
  numStepsPerEpoch : Nat := 10000
  numStepsPerEval : Nat := 1000
  numUpdatesPerEnvStep : Nat := 1
  numUpdatesPerEpoch : Option Nat := none
  maxPathLength : Nat := 1000
  replayBufferSize : Nat := 1000000
  rewardScale : Int := 1
  minNumStepsBeforeTraining : Option Nat := none
  saveExtraDataInterval : Nat := 100000
  numGpus : Nat := 1
  numEpochsPerEval : Nat := 10
  numEpochsPerParamSave : Nat := 100
  deriving DecidableEq, Repr

/-- `RLAlgorithm.__init__`, restricted to the validation it performs and
the configuration it resolves.  `none` is a construction-time failure:
the `assert collection_mode in ['online', 'batch']`, the
`assert num_updates_per_epoch is not None` for batch mode, the
`ZeroDivisionError` raised by `MPI.COMM_WORLD.Get_rank() % num_gpus`
when `num_gpus == 0` (only evaluated when MPI is available and
`ptu.get_mode()` is truthy), and the
`assert num_epochs_per_param_save % num_epochs_per_eval == 0`, whose `%`
raises `ZeroDivisionError` when `num_epochs_per_eval == 0`.
`num_updates_per_train_call` is `num_updates_per_env_step` in online mode
and `num_updates_per_epoch` in batch mode;
`min_num_steps_before_training` defaults to `num_steps_per_epoch`. -/
def initAlgo (ctx : RunContext) (ptuMode : String) (a : InitArgs) : Option Config :=
  if ¬(a.collectionMode = "online" ∨ a.collectionMode = "batch") then none
  else if a.collectionMode = "batch" ∧ a.numUpdatesPerEpoch = none then none
  else if ctx.mpiAvailable = true ∧ ptuMode ≠ "" ∧ a.numGpus = 0 then none
  else if a.numEpochsPerEval = 0 then none
  else if a.numEpochsPerParamSave % a.numEpochsPerEval ≠ 0 then none
  else some
    { collectionMode := a.collectionMode,
      numEpochs := a.numEpochs,
      numEnvStepsPerEpoch := a.numStepsPerEpoch,
      numStepsPerEval := a.numStepsPerEval,
      numUpdatesPerTrainCall :=
        if a.collectionMode = "online" then a.numUpdatesPerEnvStep
        else a.numUpdatesPerEpoch.getD 0,
      maxPathLength := a.maxPathLength,
      replayBufferSize := a.replayBufferSize,
      rewardScale := a.rewardScale,
      minNumStepsBeforeTraining := a.minNumStepsBeforeTraining.getD a.numStepsPerEpoch,
      saveExtraDataInterval := a.saveExtraDataInterval,
      numEpochsPerEval := a.numEpochsPerEval,
      numEpochsPerParamSave := a.numEpochsPerParamSave,
      ptuMode := ptuMode,
      gpuId := if ctx.mpiAvailable = true ∧ ptuMode ≠ "" then ctx.rank % a.numGpus else 0 }

/-- The attribute initialisation of `RLAlgorithm.__init__`: all counters
zero, empty path builder and exploration-path log,
`need_to_update_eval_statistics = True`, `_old_table_keys = None`, fresh
replay buffer, components on the CPU. -/
def initialState (envSeed polSeed inner0 : Nat) : AlgoState :=
  { envState := envSeed,
    polState := polSeed,
    inner := inner0,
    nEnvStepsTotal := 0,
    nTrainStepsTotal := 0,
    nRolloutsTotal := 0,
    doTrainTime := 0,
    currentPathBuilder := [],
    explorationPaths := [],
    bufferCount := 0,
    bufferEpisodes := 0,
    needToUpdateEvalStatistics := true,
    oldTableKeys := none,
    device := Device.cpu,
    trainingMode := false }

/-- Result of a possibly raising orchestrator phase: state plus the events
emitted; an `error` is an uncaught Python exception carrying the state and
events at the raise point. -/
abbrev RunRes := Except (AlgoState × List Event) (AlgoState × List Event)

/-- The state component of either outcome. -/
def stOf : RunRes → AlgoState
  | .ok (s, _) => s
  | .error (s, _) => s

/-- The emitted events of either outcome. -/
def evOf : RunRes → List Event
  | .ok (_, ev) => ev
  | .error (_, ev) => ev

/-- Did the phase abort with an exception. -/
def isErr : RunRes → Bool
  | .ok _ => false
  | .error _ => true

/-- Number of occurrences of an event in a trace. -/
def countEvent (e : Event) : List Event → Nat
  | [] => 0
  | x :: xs => (if x = e then 1 else 0) + countEvent e xs

/-- Events relevant to the step/update interleaving: environment steps and
individual `_do_training` invocations. -/
def isSampleOrUpdate : Event → Bool
  | Event.envStep => true
  | Event.doTrainingCall => true
  | _ => false

/-- Events relevant to the step/training-phase interleaving: environment
steps and `_try_to_train` entries. -/
def isSampleOrTrainAttempt : Event → Bool
  | Event.envStep => true
  | Event.trainAttempt => true
  | _ => false

/-- Persistence side effects: `logger.save_extra_data` and
`logger.save_itr_params`. -/
def isSaveEvent : Event → Bool
  | Event.saveExtraData _ => true
  | Event.saveItrParams _ => true
  | _ => false

/-- `_can_train` (lines 380-384):
`replay_buffer.num_steps_can_sample() >= min_num_steps_before_training`. -/
def canTrain (cfg : Config) (s : AlgoState) : Bool :=
  decide (cfg.minNumStepsBeforeTraining ≤ s.bufferCount)

/-- `_can_evaluate` (lines 365-378):
`len(_exploration_paths) > 0 and not need_to_update_eval_statistics`. -/
def canEvaluate (s : AlgoState) : Bool :=
  decide (0 < s.explorationPaths.length) && !s.needToUpdateEvalStatistics

/-- `_handle_step` (lines 451-485): append the transition to the current
path builder and ingest it into the replay buffer (whose readiness count
saturates at the configured capacity; see the module comment). -/
def handleStep (cfg : Config) (s : AlgoState) (tr : Transition) : AlgoState :=
  { s with currentPathBuilder := s.currentPathBuilder ++ [tr],
           bufferCount := min (s.bufferCount + 1) cfg.replayBufferSize }

/-- `_handle_rollout_ending` (lines 487-499): notify the buffer of the
episode boundary and bump the rollout counter unconditionally; then, only
when the in-progress trajectory is non-empty, materialise it
(`get_all_stacked`), append it to the exploration-path log and reset the
builder. -/
def handleRolloutEnding (s : AlgoState) : AlgoState × List Event :=
  let s1 := { s with bufferEpisodes := s.bufferEpisodes + 1,
                     nRolloutsTotal := s.nRolloutsTotal + 1 }
  if 0 < s1.currentPathBuilder.length then
    ({ s1 with explorationPaths := s1.explorationPaths ++ [s1.currentPathBuilder],
               currentPathBuilder := [] }, [Event.rolloutEnded])
  else (s1, [Event.rolloutEnded])

/-- `_start_new_rollout` (lines 413-415): reset the exploration policy and
the training environment, returning the fresh observation. -/
def startNewRollout (env : Env) (pol : Policy) (s : AlgoState) : AlgoState × Nat :=
  let ps := pol.reset s.polState
  let r := env.reset s.envState
  ({ s with polState := ps, envState := r.1 }, r.2)

/-- `_start_epoch` (lines 397-401): clear the exploration-path log and the
per-epoch train-time accumulator (logging prefix is I/O only). -/
def startEpochState (s : AlgoState) : AlgoState :=
  { s with explorationPaths := [], doTrainTime := 0 }

/-- `_end_epoch` (lines 403-411): logging only, plus the registered
post-epoch hooks, which default to the empty list — the identity on the
orchestrator state. -/
def endEpochState (s : AlgoState) : AlgoState :=
  s

/-- `_take_step_in_env` (lines 224-268): query the policy (after telling it
the current global step count), step the training environment, bump the
env-step counter, scale the reward, record the transition, and end the
rollout (starting a new one) exactly when the step is terminal or the
in-progress trajectory has reached `max_path_length`.  Returns the new
state, the observation for the next step, and the emitted events. -/
def takeStepInEnv (cfg : Config) (env : Env) (pol : Policy) (s : AlgoState)
    (observation : Nat) : AlgoState × Nat × List Event :=
  let pa := pol.getAction s.polState s.nEnvStepsTotal observation
  let st := env.step s.envState pa.2
  let s1 : AlgoState :=
    { s with polState := pa.1, envState := st.1,
             nEnvStepsTotal := s.nEnvStepsTotal + 1 }
  let reward : Int := st.2.2.1 * cfg.rewardScale
  let s2 := handleStep cfg s1
    { observation := observation, action := pa.2, reward := reward,
      nextObservation := st.2.1, terminal := st.2.2.2 }
  if st.2.2.2 || decide (cfg.maxPathLength ≤ s2.currentPathBuilder.length) then
    let p := handleRolloutEnding s2
    let q := startNewRollout env pol p.1
    (q.1, q.2, Event.envStep :: p.2)
  else (s2, st.2.1, [Event.envStep])

/-- The update burst inside `_try_to_train` (lines 281-284): call
`_do_training` `k` times, incrementing `_n_train_steps_total` after each
successful call; a raising call propagates immediately. -/
def updateBurst (doTr : Nat → Option Nat) : Nat → AlgoState → RunRes
  | 0, s => .ok (s, [])
  | k + 1, s =>
    match doTr s.inner with
    | none => .error (s, [Event.doTrainingCall])
    | some n1 =>
      let s1 : AlgoState :=
        { s with inner := n1, nTrainStepsTotal := s.nTrainStepsTotal + 1 }
      match updateBurst doTr k s1 with
      | .ok (s2, ev) => .ok (s2, Event.doTrainingCall :: ev)
      | .error (s2, ev) => .error (s2, Event.doTrainingCall :: ev)

/-- The guarded body of `_try_to_train` (lines 278-285): if `_can_train()`,
switch to training mode, run the update burst and switch back; otherwise a
no-op. -/
def tryToTrainCore (cfg : Config) (doTr : Nat → Option Nat) (s0 : AlgoState) : RunRes :=
  if canTrain cfg s0 then
    match updateBurst doTr cfg.numUpdatesPerTrainCall { s0 with trainingMode := true } with
    | .ok (s1, ev) => .ok ({ s1 with trainingMode := false }, ev)
    | .error (s1, ev) => .error (s1, ev)
  else .ok (s0, [])

/-- `_try_to_train` (lines 270-288): in `gpu_opt` deployments first move
the components to the rank-scoped accelerator; then the guarded body;
finally (on the non-raising paths only — the source has no try/finally)
move the components back to the CPU when in `gpu_opt` mode. -/
def tryToTrain (cfg : Config) (doTr : Nat → Option Nat) (s : AlgoState) : RunRes :=
  let s0 := if cfg.ptuMode = "gpu_opt" then { s with device := Device.gpu cfg.gpuId } else s
  match tryToTrainCore cfg doTr s0 with
  | .ok (s2, ev) =>
    .ok ((if cfg.ptuMode = "gpu_opt" then { s2 with device := Device.cpu } else s2),
         Event.trainAttempt :: ev)
  | .error (s2, ev) => .error (s2, Event.trainAttempt :: ev)

/-- `evaluate` (lines 540-574): sampling and statistics computation are
external; the orchestrator-state effect is flagging the evaluation
statistics stale again (`need_to_update_eval_statistics = True`, line
574).  The keys it records into the logger are abstracted by the `keys`
oracle of `tryToEval`. -/
def evaluate (s : AlgoState) : AlgoState × List Event :=
  ({ s with needToUpdateEvalStatistics := true }, [Event.evalRan])

/-- The statistics-reporting body of `_try_to_eval` (lines 301-363): when
`_can_evaluate()`, run `evaluate`, then enforce the table-key schema check
— `raise NotImplementedError` when `_old_table_keys is not None` and the
key set changed — otherwise record the key set and dump the tabular row.
When evaluation is not legal, log the skip and do nothing.  `keys` is
`logger.get_table_key_set()` for this epoch; `ev0` the events already
emitted by the checkpointing sub-step. -/
def tryToEvalStats (keys : Finset String) (s : AlgoState) (ev0 : List Event) : RunRes :=
  if canEvaluate s then
    let e := evaluate s
    if e.1.oldTableKeys ≠ none ∧ e.1.oldTableKeys ≠ some keys then
      .error (e.1, ev0 ++ e.2)
    else
      .ok ({ e.1 with oldTableKeys := some keys }, ev0 ++ e.2 ++ [Event.dumpTabular])
  else .ok (s, ev0)

/-- `_try_to_eval` (lines 290-363): the rank-0 checkpointing sub-step —
save extra data every `save_extra_data_interval` epochs and a numbered
parameter snapshot every `num_epochs_per_param_save` epochs, both only
when MPI is available and this is rank 0 (the Python `and` short-circuits
when `MPI is None`); a zero interval makes the Python `%` raise — then
the statistics-reporting body. -/
def tryToEval (cfg : Config) (ctx : RunContext) (keys : Finset String)
    (epoch : Nat) (s : AlgoState) : RunRes :=
  if ctx.mpiAvailable = true ∧ ctx.rank = 0 then
    if cfg.saveExtraDataInterval = 0 then .error (s, [])
    else
      let ev1 := if epoch % cfg.saveExtraDataInterval = 0 then [Event.saveExtraData epoch] else []
      if cfg.numEpochsPerParamSave = 0 then .error (s, ev1)
      else
        let ev2 := ev1 ++ (if epoch % cfg.numEpochsPerParamSave = 0
                           then [Event.saveItrParams (epoch : Int)] else [])
        tryToEvalStats keys s ev2
  else tryToEvalStats keys s []

/-- The events emitted by the non-raising paths of the checkpointing
sub-step of `_try_to_eval` (lines 291-299). -/
def saveEvents (cfg : Config) (ctx : RunContext) (epoch : Nat) : List Event :=
  if ctx.mpiAvailable = true ∧ ctx.rank = 0 then
    (if epoch % cfg.saveExtraDataInterval = 0 then [Event.saveExtraData epoch] else []) ++
    (if epoch % cfg.numEpochsPerParamSave = 0 then [Event.saveItrParams (epoch : Int)] else [])
  else []

/-- The per-epoch sampling/training loop of `train_online` (lines 187-192):
`num_env_steps_per_epoch` iterations of one environment step followed by
one training attempt. -/
def onlineLoop (cfg : Config) (env : Env) (pol : Policy)
    (doTr : Nat → Option Nat) : Nat → AlgoState → Nat → RunRes
  | 0, s, _ => .ok (s, [])
  | k + 1, s, obs =>
    let t := takeStepInEnv cfg env pol s obs
    match tryToTrain cfg doTr t.1 with
    | .error (s2, ev2) => .error (s2, t.2.2 ++ ev2)
    | .ok (s2, ev2) =>
      match onlineLoop cfg env pol doTr k s2 t.2.1 with
      | .ok (s3, ev3) => .ok (s3, t.2.2 ++ (ev2 ++ ev3))
      | .error (s3, ev3) => .error (s3, t.2.2 ++ (ev2 ++ ev3))

/-- The per-epoch collection loop of `train_batch` (lines 210-211):
`num_env_steps_per_epoch` environment steps with no interleaved
training. -/
def batchStepsLoop (cfg : Config) (env : Env) (pol : Policy) :
    Nat → AlgoState → Nat → AlgoState × Nat × List Event
  | 0, s, obs => (s, obs, [])
  | k + 1, s, obs =>
    let t := takeStepInEnv cfg env pol s obs
    let r := batchStepsLoop cfg env pol k t.1 t.2.1
    (r.1, r.2.1, t.2.2 ++ r.2.2)

/-- One epoch of `train_online` (lines 180-197): begin the epoch, start a
new rollout, interleave steps and training attempts, then attempt an
evaluation unconditionally and end the epoch.  (`set_to_train_mode` /
`set_to_eval_mode` are capability-gated environment toggles with no
orchestrator-state effect.) -/
def onlineEpoch (cfg : Config) (ctx : RunContext) (env : Env) (pol : Policy)
    (doTr : Nat → Option Nat) (keys : Finset String) (epoch : Nat)
    (s : AlgoState) : RunRes :=
  let r0 := startNewRollout env pol (startEpochState s)
  match onlineLoop cfg env pol doTr cfg.numEnvStepsPerEpoch r0.1 r0.2 with
  | .error e => .error e
  | .ok (s3, ev) =>
    match tryToEval cfg ctx keys epoch s3 with
    | .ok (s4, ev4) => .ok (endEpochState s4, ev ++ ev4)
    | .error (s4, ev4) => .error (s4, ev ++ ev4)

/-- One epoch of `train_batch` (lines 201-222): begin the epoch, start a
new rollout, collect all steps, attempt training once, then attempt an
evaluation only when `epoch % num_epochs_per_eval == 0`, and end the
epoch.  (Constructed configurations have `num_epochs_per_eval > 0`, so
the Python `%` here cannot raise.) -/
def batchEpoch (cfg : Config) (ctx : RunContext) (env : Env) (pol : Policy)
    (doTr : Nat → Option Nat) (keys : Finset String) (epoch : Nat)
    (s : AlgoState) : RunRes :=
  let r0 := startNewRollout env pol (startEpochState s)
  let c := batchStepsLoop cfg env pol cfg.numEnvStepsPerEpoch r0.1 r0.2
  match tryToTrain cfg doTr c.1 with
  | .error (s4, ev4) => .error (s4, c.2.2 ++ ev4)
  | .ok (s4, ev4) =>
    if epoch % cfg.numEpochsPerEval = 0 then
      match tryToEval cfg ctx keys epoch s4 with
      | .ok (s5, ev5) => .ok (endEpochState s5, c.2.2 ++ ev4 ++ ev5)
      | .error (s5, ev5) => .error (s5, c.2.2 ++ ev4 ++ ev5)
    else .ok (endEpochState s4, c.2.2 ++ ev4)

/-- `for epoch in range(e0, e0 + k)` over an epoch body, propagating a
raise and concatenating the traces. -/
def epochsLoop (body : Nat → AlgoState → RunRes) : Nat → Nat → AlgoState → RunRes
  | _, 0, s => .ok (s, [])
  | e0, k + 1, s =>
    match body e0 s with
    | .error er => .error er
    | .ok (s1, ev) =>
      match epochsLoop body (e0 + 1) k s1 with
      | .ok (s2, ev2) => .ok (s2, ev ++ ev2)
      | .error (s2, ev2) => .error (s2, ev ++ ev2)

/-- `train_online` (lines 178-197): fresh path builder, then the epochs
from `start_epoch` to `num_epochs - 1`.  `keysOf` is the per-epoch
reported-key-set oracle. -/
def trainOnline (cfg : Config) (ctx : RunContext) (env : Env) (pol : Policy)
    (doTr : Nat → Option Nat) (keysOf : Nat → Finset String)
    (startEp : Nat) (s : AlgoState) : RunRes :=
  epochsLoop (fun e st => onlineEpoch cfg ctx env pol doTr (keysOf e) e st)
    startEp (cfg.numEpochs - startEp) { s with currentPathBuilder := [] }

/-- `train_batch` (lines 199-222): fresh path builder, then the epochs
from `start_epoch` to `num_epochs - 1`. -/
def trainBatch (cfg : Config) (ctx : RunContext) (env : Env) (pol : Policy)
    (doTr : Nat → Option Nat) (keysOf : Nat → Finset String)
    (startEp : Nat) (s : AlgoState) : RunRes :=
  epochsLoop (fun e st => batchEpoch cfg ctx env pol doTr (keysOf e) e st)
    startEp (cfg.numEpochs - startEp) { s with currentPathBuilder := [] }

/-- `train` (lines 157-173): run the (no-op by default) pretraining hook;
when starting from epoch 0 with MPI available and rank 0, save the
epoch −1 parameter snapshot; leave training mode; seed the global env-step
counter at `start_epoch * num_env_steps_per_epoch`; then dispatch on the
collection mode, raising `TypeError` on an unrecognised one. -/
def train (cfg : Config) (ctx : RunContext) (env : Env) (pol : Policy)
    (doTr : Nat → Option Nat) (keysOf : Nat → Finset String)
    (startEp : Nat) (s : AlgoState) : RunRes :=
  let ev0 := if startEp = 0 ∧ ctx.mpiAvailable = true ∧ ctx.rank = 0
             then [Event.saveItrParams (-1 : Int)] else []
  let s1 : AlgoState :=
    { s with trainingMode := false,
             nEnvStepsTotal := startEp * cfg.numEnvStepsPerEpoch }
  if cfg.collectionMode = "online" then
    match trainOnline cfg ctx env pol doTr keysOf startEp s1 with
    | .ok (s2, ev) => .ok (s2, ev0 ++ ev)
    | .error (s2, ev) => .error (s2, ev0 ++ ev)
  else if cfg.collectionMode = "batch" then
    match trainBatch cfg ctx env pol doTr keysOf startEp s1 with
    | .ok (s2, ev) => .ok (s2, ev0 ++ ev)
    | .error (s2, ev) => .error (s2, ev0 ++ ev)
  else .error (s1, ev0)

/-- A deterministic non-terminating environment used for concrete runs. -/
def envX : Env :=
  { reset := fun es => (es, 0),
    step := fun es _a => (es, 0, 1, false) }

/-- A deterministic environment whose every step is terminal, used for
concrete runs. -/
def envTermX : Env :=
  { reset := fun es => (es + 1, 5), step := fun es _a => (es, 42, 2, true) }

/-- A trivial exploration policy used for concrete runs. -/
def polX : Policy :=
  { reset := fun ps => ps, getAction := fun ps _n ob => (ps, ob) }

/-- A process context where the `mpi4py` import failed (`MPI is None`). -/
def ctxNoMpi : RunContext :=
  { mpiAvailable := false, rank := 0 }

/-- A one-epoch, one-step-per-epoch batch-mode configuration with the
defaulted training threshold (`min_num_steps_before_training =
num_steps_per_epoch`). -/
def cfgBatchX : Config :=
  { collectionMode := "batch",
    numEpochs := 1,
    numEnvStepsPerEpoch := 1,
    numStepsPerEval := 1000,
    numUpdatesPerTrainCall := 1,
    maxPathLength := 1,
    replayBufferSize := 1000000,
    rewardScale := 1,
    minNumStepsBeforeTraining := 1,
    saveExtraDataInterval := 100000,
    numEpochsPerEval := 10,
    numEpochsPerParamSave := 100,
    ptuMode := "",
    gpuId := 0 }

/-- A `gpu_opt` configuration whose training threshold is already met by a
fresh buffer, used to exercise the accelerator hand-off. -/
def cfgGpuX : Config :=
  { cfgBatchX with ptuMode := "gpu_opt", minNumStepsBeforeTraining := 0 }

/-- A fresh orchestrator state. -/
def sZero : AlgoState := initialState 0 0 0

/-- A concrete recorded transition. -/
def trX : Transition :=
  { observation := 0, action := 0, reward := 1, nextObservation := 0, terminal := false }

/-- An orchestrator state that is eligible for evaluation and has an
established table-key set. -/
def sEvalX : AlgoState :=
  { sZero with explorationPaths := [[trX]],
               needToUpdateEvalStatistics := false,
               oldTableKeys := some ({"Epoch"} : Finset String) }

/-- The construction arguments of the C9 boundary configuration:
valid mode, `num_epochs_per_eval = 0`, `num_epochs_per_param_save = 0`. -/
def argsZeroEval : InitArgs :=
  { collectionMode := "online", numEpochsPerEval := 0, numEpochsPerParamSave := 0 }

/-- The construction-failure condition exactly as claim C9 states it
(used only to compare the claim with the code): invalid `collection_mode`;
`batch` mode without `num_updates_per_epoch`; or `num_epochs_per_param_save`
not an exact multiple of `num_epochs_per_eval`. -/
def c9ClaimedFailure (a : InitArgs) : Prop :=
  ¬(a.collectionMode = "online" ∨ a.collectionMode = "batch")
  ∨ (a.collectionMode = "batch" ∧ a.numUpdatesPerEpoch = none)
  ∨ ¬(a.numEpochsPerEval ∣ a.numEpochsPerParamSave)

/-! ### Helper lemmas about traces and the component operations -/

theorem countEvent_append (e : Event) (l1 l2 : List Event) :
    countEvent e (l1 ++ l2) = countEvent e l1 + countEvent e l2 := by
  induction l1 with
  | nil => simp [countEvent]
  | cons x xs ih => simp [countEvent, ih]; omega

theorem countEvent_replicate (e : Event) (n : Nat) :
    countEvent e (List.replicate n e) = n := by
  induction n with
  | zero => rfl
  | succ k ih =>
    rw [List.replicate_succ]
    show (if e = e then 1 else 0) + countEvent e (List.replicate k e) = k + 1
    rw [if_pos rfl, ih]
    omega

theorem handleRolloutEnding_events (s : AlgoState) :
    (handleRolloutEnding s).2 = [Event.rolloutEnded] := by
  by_cases h : 0 < s.currentPathBuilder.length <;> simp [handleRolloutEnding, h]

theorem handleRolloutEnding_buffer (s : AlgoState) :
    (handleRolloutEnding s).1.bufferCount = s.bufferCount := by
  by_cases h : 0 < s.currentPathBuilder.length <;> simp [handleRolloutEnding, h]

theorem startNewRollout_buffer (env : Env) (pol : Policy) (s : AlgoState) :
    (startNewRollout env pol s).1.bufferCount = s.bufferCount := by
  rfl

theorem takeStepInEnv_events (cfg : Config) (env : Env) (pol : Policy)
    (s : AlgoState) (obs : Nat) :
    (takeStepInEnv cfg env pol s obs).2.2 = [Event.envStep] ∨
    (takeStepInEnv cfg env pol s obs).2.2 = [Event.envStep, Event.rolloutEnded] := by
  unfold takeStepInEnv
  dsimp only
  split
  · right
    rw [handleRolloutEnding_events]
  · left
    rfl

theorem takeStepInEnv_buffer (cfg : Config) (env : Env) (pol : Policy)
    (s : AlgoState) (obs : Nat) :
    (takeStepInEnv cfg env pol s obs).1.bufferCount =
      min (s.bufferCount + 1) cfg.replayBufferSize := by
  unfold takeStepInEnv
  dsimp only
  split
  · rw [startNewRollout_buffer, handleRolloutEnding_buffer]
    rfl
  · rfl

theorem updateBurst_events (doTr : Nat → Option Nat) :
    ∀ (k : Nat) (s : AlgoState), ∀ e ∈ evOf (updateBurst doTr k s),
      e = Event.doTrainingCall := by
  intro k
  induction k with
  | zero => intro s e he; simp [updateBurst, evOf] at he
  | succ k ih =>
    intro s e he
    unfold updateBurst at he
    cases hd : doTr s.inner with
    | none => rw [hd] at he; simp [evOf] at he; exact he
    | some n1 =>
      rw [hd] at he
      dsimp only at he
      rcases hrec : updateBurst doTr k
          { s with inner := n1, nTrainStepsTotal := s.nTrainStepsTotal + 1 } with
        ⟨s2, ev⟩ | ⟨s2, ev⟩ <;> rw [hrec] at he <;> simp only [evOf, List.mem_cons] at he <;>
        rcases he with he | he
      · exact he
      · exact ih _ e (by rw [hrec]; exact he)
      · exact he
      · exact ih _ e (by rw [hrec]; exact he)

theorem updateBurst_buffer (doTr : Nat → Option Nat) :
    ∀ (k : Nat) (s : AlgoState),
      (stOf (updateBurst doTr k s)).bufferCount = s.bufferCount := by
  intro k
  induction k with
  | zero => intro s; rfl
  | succ k ih =>
    intro s
    unfold updateBurst
    cases hd : doTr s.inner with
    | none => rfl
    | some n1 =>
      dsimp only
      rcases hrec : updateBurst doTr k
          { s with inner := n1, nTrainStepsTotal := s.nTrainStepsTotal + 1 } with
        ⟨s2, ev⟩ | ⟨s2, ev⟩ <;>
        have := ih { s with inner := n1, nTrainStepsTotal := s.nTrainStepsTotal + 1 } <;>
        rw [hrec] at this <;> simpa [stOf] using this

theorem updateBurst_total (f : Nat → Nat) :
    ∀ (k : Nat) (s : AlgoState), ∃ s2,
      updateBurst (fun n => some (f n)) k s =
        .ok (s2, List.replicate k Event.doTrainingCall) := by
  intro k
  induction k with
  | zero => intro s; exact ⟨s, rfl⟩
  | succ k ih =>
    intro s
    obtain ⟨s2, h⟩ :=
      ih { s with inner := f s.inner, nTrainStepsTotal := s.nTrainStepsTotal + 1 }
    refine ⟨s2, ?_⟩
    unfold updateBurst
    dsimp only
    rw [h, List.replicate_succ]

theorem ok_of_not_isErr (r : RunRes) (h : isErr r = false) :
    r = .ok (stOf r, evOf r) := by
  cases r with
  | ok p => cases p; rfl
  | error p => simp [isErr] at h

theorem error_of_isErr (r : RunRes) (h : isErr r = true) :
    r = .error (stOf r, evOf r) := by
  cases r with
  | ok p => simp [isErr] at h
  | error p => cases p; rfl


theorem canTrain_ite (cfg : Config) (c : Prop) [Decidable c] (s : AlgoState) (d : Device) :
    canTrain cfg (if c then { s with device := d } else s) = canTrain cfg s := by
  split <;> rfl

theorem bufferCount_ite_device (c : Prop) [Decidable c] (s : AlgoState) (d : Device) :
    ((if c then { s with device := d } else s) : AlgoState).bufferCount = s.bufferCount := by
  split <;> rfl

theorem tryToTrainCore_buffer (cfg : Config) (doTr : Nat → Option Nat) (s0 : AlgoState) :
    (stOf (tryToTrainCore cfg doTr s0)).bufferCount = s0.bufferCount := by
  unfold tryToTrainCore
  split
  · split
    next s1 ev hb =>
      have := updateBurst_buffer doTr cfg.numUpdatesPerTrainCall { s0 with trainingMode := true }
      rw [hb] at this
      simpa [stOf] using this
    next s1 ev hb =>
      have := updateBurst_buffer doTr cfg.numUpdatesPerTrainCall { s0 with trainingMode := true }
      rw [hb] at this
      simpa [stOf] using this
  · rfl

theorem tryToTrainCore_events (cfg : Config) (doTr : Nat → Option Nat) (s0 : AlgoState) :
    ∀ e ∈ evOf (tryToTrainCore cfg doTr s0), e = Event.doTrainingCall := by
  intro e he
  unfold tryToTrainCore at he
  revert he
  split
  · split
    next s1 ev hb =>
      intro he
      simp only [evOf] at he
      exact updateBurst_events doTr _ _ e (by rw [hb]; simpa [evOf] using he)
    next s1 ev hb =>
      intro he
      simp only [evOf] at he
      exact updateBurst_events doTr _ _ e (by rw [hb]; simpa [evOf] using he)
  · intro he
    simp [evOf] at he

theorem tryToTrainCore_total (cfg : Config) (f : Nat → Nat) (s0 : AlgoState) :
    ∃ s2, tryToTrainCore cfg (fun n => some (f n)) s0 =
      .ok (s2, if canTrain cfg s0
               then List.replicate cfg.numUpdatesPerTrainCall Event.doTrainingCall
               else []) := by
  unfold tryToTrainCore
  by_cases hc : canTrain cfg s0 = true
  · rw [if_pos hc, if_pos hc]
    obtain ⟨s2, hb⟩ := updateBurst_total f cfg.numUpdatesPerTrainCall
      { s0 with trainingMode := true }
    rw [hb]
    exact ⟨_, rfl⟩
  · rw [if_neg hc, if_neg hc]
    exact ⟨s0, rfl⟩

theorem tryToTrain_buffer (cfg : Config) (doTr : Nat → Option Nat) (s : AlgoState) :
    (stOf (tryToTrain cfg doTr s)).bufferCount = s.bufferCount := by
  unfold tryToTrain
  dsimp only
  rcases hb : tryToTrainCore cfg doTr
      (if cfg.ptuMode = "gpu_opt" then { s with device := Device.gpu cfg.gpuId } else s) with
    ⟨s2, ev⟩ | ⟨s2, ev⟩ <;>
    have hcb := tryToTrainCore_buffer cfg doTr
      (if cfg.ptuMode = "gpu_opt" then { s with device := Device.gpu cfg.gpuId } else s) <;>
    rw [hb] at hcb <;>
    rw [bufferCount_ite_device] at hcb <;>
    simp only [stOf] at hcb ⊢
  · exact hcb
  · rw [bufferCount_ite_device]
    exact hcb

theorem tryToTrain_events (cfg : Config) (doTr : Nat → Option Nat) (s : AlgoState) :
    ∀ e ∈ evOf (tryToTrain cfg doTr s),
      e = Event.trainAttempt ∨ e = Event.doTrainingCall := by
  intro e he
  unfold tryToTrain at he
  dsimp only at he
  rcases hb : tryToTrainCore cfg doTr
      (if cfg.ptuMode = "gpu_opt" then { s with device := Device.gpu cfg.gpuId } else s) with
    ⟨s2, ev⟩ | ⟨s2, ev⟩ <;>
    rw [hb] at he <;>
    simp only [evOf, List.mem_cons] at he <;>
    rcases he with he | he
  · exact Or.inl he
  · exact Or.inr (tryToTrainCore_events cfg doTr _ e (by rw [hb]; simpa [evOf] using he))
  · exact Or.inl he
  · exact Or.inr (tryToTrainCore_events cfg doTr _ e (by rw [hb]; simpa [evOf] using he))

theorem tryToTrain_total_events (cfg : Config) (f : Nat → Nat) (s : AlgoState) :
    isErr (tryToTrain cfg (fun n => some (f n)) s) = false ∧
    evOf (tryToTrain cfg (fun n => some (f n)) s) =
      Event.trainAttempt ::
        (if canTrain cfg s
         then List.replicate cfg.numUpdatesPerTrainCall Event.doTrainingCall
         else []) := by
  unfold tryToTrain
  dsimp only
  obtain ⟨s2, hb⟩ := tryToTrainCore_total cfg f
    (if cfg.ptuMode = "gpu_opt" then { s with device := Device.gpu cfg.gpuId } else s)
  rw [hb]
  rw [canTrain_ite] at hb ⊢
  exact ⟨rfl, rfl⟩

theorem tryToEvalStats_skip (keys : Finset String) (s : AlgoState) (ev0 : List Event)
    (h : canEvaluate s = false) :
    tryToEvalStats keys s ev0 = .ok (s, ev0) := by
  unfold tryToEvalStats
  rw [h]
  rfl

theorem tryToEvalStats_raise (keys : Finset String) (s : AlgoState) (ev0 : List Event)
    (k : Finset String) (h : canEvaluate s = true) (hold : s.oldTableKeys = some k)
    (hne : keys ≠ k) :
    tryToEvalStats keys s ev0 =
      .error ({ s with needToUpdateEvalStatistics := true }, ev0 ++ [Event.evalRan]) := by
  unfold tryToEvalStats evaluate
  rw [h]
  dsimp only
  have hcond : s.oldTableKeys ≠ none ∧ s.oldTableKeys ≠ some keys := by
    constructor
    · rw [hold]; exact Option.some_ne_none k
    · rw [hold]
      intro hc
      exact hne (Option.some_injective _ hc).symm
  rw [if_pos hcond]
  rfl

theorem tryToEvalStats_ok_eval (keys : Finset String) (s : AlgoState) (ev0 : List Event)
    (h : canEvaluate s = true) (hold : s.oldTableKeys = none ∨ s.oldTableKeys = some keys) :
    tryToEvalStats keys s ev0 =
      .ok ({ s with needToUpdateEvalStatistics := true, oldTableKeys := some keys },
           ev0 ++ [Event.evalRan] ++ [Event.dumpTabular]) := by
  unfold tryToEvalStats evaluate
  rw [h]
  dsimp only
  have hcond : ¬(s.oldTableKeys ≠ none ∧ s.oldTableKeys ≠ some keys) := by
    rcases hold with hold | hold <;> rw [hold]
    · intro hc
      exact hc.1 rfl
    · intro hc
      exact hc.2 rfl
  rw [if_neg hcond]
  rfl

theorem saveEvents_save (cfg : Config) (ctx : RunContext) (epoch : Nat) :
    ∀ e ∈ saveEvents cfg ctx epoch, isSaveEvent e = true := by
  intro e he
  unfold saveEvents at he
  by_cases hm : ctx.mpiAvailable = true ∧ ctx.rank = 0
  · rw [if_pos hm] at he
    rcases List.mem_append.mp he with h1 | h1
    · revert h1
      split <;> intro h1
      · rw [List.mem_singleton.mp h1]; rfl
      · exact absurd h1 (List.not_mem_nil e)
    · revert h1
      split <;> intro h1
      · rw [List.mem_singleton.mp h1]; rfl
      · exact absurd h1 (List.not_mem_nil e)
  · rw [if_neg hm] at he
    exact absurd he (List.not_mem_nil e)

theorem saveEvents_nompi (cfg : Config) (ctx : RunContext) (epoch : Nat)
    (h : ctx.mpiAvailable = false) : saveEvents cfg ctx epoch = [] := by
  unfold saveEvents
  rw [if_neg]
  intro hc
  rw [h] at hc
  exact Bool.false_ne_true hc.1

theorem tryToEval_eq_stats (cfg : Config) (ctx : RunContext) (keys : Finset String)
    (epoch : Nat) (s : AlgoState)
    (hsafe : ctx.mpiAvailable = false ∨ ctx.rank ≠ 0 ∨
      (cfg.saveExtraDataInterval ≠ 0 ∧ cfg.numEpochsPerParamSave ≠ 0)) :
    tryToEval cfg ctx keys epoch s = tryToEvalStats keys s (saveEvents cfg ctx epoch) := by
  unfold tryToEval saveEvents
  by_cases hm : ctx.mpiAvailable = true ∧ ctx.rank = 0
  · rw [if_pos hm, if_pos hm]
    have hz : cfg.saveExtraDataInterval ≠ 0 ∧ cfg.numEpochsPerParamSave ≠ 0 := by
      rcases hsafe with h | h | h
      · exact absurd hm.1 (by rw [h]; exact Bool.false_ne_true)
      · exact absurd hm.2 h
      · exact h
    rw [if_neg hz.1, if_neg hz.2]
  · rw [if_neg hm, if_neg hm]

theorem tryToEvalStats_events (keys : Finset String) (s : AlgoState) (ev0 : List Event) :
    ∀ e ∈ evOf (tryToEvalStats keys s ev0),
      e ∈ ev0 ∨ e = Event.evalRan ∨ e = Event.dumpTabular := by
  intro e he
  unfold tryToEvalStats evaluate at he
  revert he
  split
  · dsimp only
    split <;> intro he <;>
      simp only [evOf, List.mem_append, List.mem_singleton] at he
    · rcases he with he | he
      · exact Or.inl he
      · exact Or.inr (Or.inl he)
    · rcases he with (he | he) | he
      · exact Or.inl he
      · exact Or.inr (Or.inl he)
      · exact Or.inr (Or.inr he)
  · intro he
    simp only [evOf] at he
    exact Or.inl he

theorem tryToEval_events_all (cfg : Config) (ctx : RunContext) (keys : Finset String)
    (epoch : Nat) (s : AlgoState) :
    ∀ e ∈ evOf (tryToEval cfg ctx keys epoch s),
      isSaveEvent e = true ∨ e = Event.evalRan ∨ e = Event.dumpTabular := by
  intro e he
  unfold tryToEval at he
  by_cases hm : ctx.mpiAvailable = true ∧ ctx.rank = 0
  · rw [if_pos hm] at he
    by_cases h1 : cfg.saveExtraDataInterval = 0
    · rw [if_pos h1] at he
      simp only [evOf] at he
      exact absurd he (List.not_mem_nil e)
    · rw [if_neg h1] at he
      dsimp only at he
      by_cases h2 : cfg.numEpochsPerParamSave = 0
      · rw [if_pos h2] at he
        revert he
        split <;> intro he <;> simp only [evOf] at he
        · rw [List.mem_singleton.mp he]
          exact Or.inl rfl
        · exact absurd he (List.not_mem_nil e)
      · rw [if_neg h2] at he
        rcases tryToEvalStats_events keys s _ e he with h3 | h3
        · left
          rcases List.mem_append.mp h3 with h4 | h4 <;> revert h4 <;> split <;> intro h4
          · rw [List.mem_singleton.mp h4]; rfl
          · exact absurd h4 (List.not_mem_nil e)
          · rw [List.mem_singleton.mp h4]; rfl
          · exact absurd h4 (List.not_mem_nil e)
        · exact Or.inr h3
  · rw [if_neg hm] at he
    rcases tryToEvalStats_events keys s [] e he with h3 | h3
    · exact absurd h3 (List.not_mem_nil e)
    · exact Or.inr h3

theorem filter_none (p : Event → Bool) (l : List Event) (h : ∀ e ∈ l, p e = false) :
    l.filter p = [] := by
  induction l with
  | nil => rfl
  | cons x xs ih =>
    have hx := h x (List.mem_cons_self x xs)
    rw [List.filter_cons, if_neg (by rw [hx]; exact Bool.false_ne_true)]
    exact ih (fun e he => h e (List.mem_cons_of_mem x he))

theorem tryToEval_filter_upd (cfg : Config) (ctx : RunContext) (keys : Finset String)
    (epoch : Nat) (s : AlgoState) :
    (evOf (tryToEval cfg ctx keys epoch s)).filter isSampleOrUpdate = [] := by
  apply filter_none
  intro e he
  rcases tryToEval_events_all cfg ctx keys epoch s e he with h | h | h
  · cases e <;> first | rfl | (exfalso; simp [isSaveEvent] at h)
  · rw [h]; rfl
  · rw [h]; rfl

theorem tryToEval_filter_sta (cfg : Config) (ctx : RunContext) (keys : Finset String)
    (epoch : Nat) (s : AlgoState) :
    (evOf (tryToEval cfg ctx keys epoch s)).filter isSampleOrTrainAttempt = [] := by
  apply filter_none
  intro e he
  rcases tryToEval_events_all cfg ctx keys epoch s e he with h | h | h
  · cases e <;> first | rfl | (exfalso; simp [isSaveEvent] at h)
  · rw [h]; rfl
  · rw [h]; rfl

theorem tryToEval_filter_save_nompi (cfg : Config) (ctx : RunContext) (keys : Finset String)
    (epoch : Nat) (s : AlgoState) (h : ctx.mpiAvailable = false) :
    (evOf (tryToEval cfg ctx keys epoch s)).filter isSaveEvent = [] := by
  apply filter_none
  intro e he
  unfold tryToEval at he
  rw [if_neg (fun hc => Bool.false_ne_true (h ▸ hc.1))] at he
  rcases tryToEvalStats_events keys s [] e he with h3 | h3 | h3
  · exact absurd h3 (List.not_mem_nil e)
  · rw [h3]; rfl
  · rw [h3]; rfl

theorem takeStep_filter_upd (cfg : Config) (env : Env) (pol : Policy) (s : AlgoState)
    (obs : Nat) :
    ((takeStepInEnv cfg env pol s obs).2.2).filter isSampleOrUpdate = [Event.envStep] := by
  rcases takeStepInEnv_events cfg env pol s obs with h | h <;> rw [h] <;> rfl

theorem takeStep_filter_sta (cfg : Config) (env : Env) (pol : Policy) (s : AlgoState)
    (obs : Nat) :
    ((takeStepInEnv cfg env pol s obs).2.2).filter isSampleOrTrainAttempt = [Event.envStep] := by
  rcases takeStepInEnv_events cfg env pol s obs with h | h <;> rw [h] <;> rfl

theorem takeStep_filter_save (cfg : Config) (env : Env) (pol : Policy) (s : AlgoState)
    (obs : Nat) :
    ((takeStepInEnv cfg env pol s obs).2.2).filter isSaveEvent = [] := by
  rcases takeStepInEnv_events cfg env pol s obs with h | h <;> rw [h] <;> rfl

theorem tryToTrain_filter_sta (cfg : Config) (doTr : Nat → Option Nat) (s : AlgoState) :
    (evOf (tryToTrain cfg doTr s)).filter isSampleOrTrainAttempt = [Event.trainAttempt] := by
  unfold tryToTrain
  dsimp only
  rcases hb : tryToTrainCore cfg doTr
      (if cfg.ptuMode = "gpu_opt" then { s with device := Device.gpu cfg.gpuId } else s) with
    ⟨s2, ev⟩ | ⟨s2, ev⟩ <;>
    simp only [evOf, List.filter_cons, if_pos] <;>
    rw [show List.filter isSampleOrTrainAttempt ev = [] from
      filter_none _ _ (fun e he => by
        rw [tryToTrainCore_events cfg doTr _ e (by rw [hb]; exact he)]
        rfl)] <;>
    rfl

theorem tryToTrain_filter_save (cfg : Config) (doTr : Nat → Option Nat) (s : AlgoState) :
    (evOf (tryToTrain cfg doTr s)).filter isSaveEvent = [] := by
  apply filter_none
  intro e he
  rcases tryToTrain_events cfg doTr s e he with h | h <;> rw [h] <;> rfl

theorem countEvent_cons_ne (e x : Event) (l : List Event) (h : x ≠ e) :
    countEvent e (x :: l) = countEvent e l := by
  simp [countEvent, h]

/-- Claim C1: a call to `_try_to_train` performs update operations exactly
when `num_steps_can_sample() ≥ min_num_steps_before_training`; at exactly
the threshold the full update burst runs, one below the threshold no
update is performed and the phase is a no-op rather than an error (the
state is returned unchanged, up to the `gpu_opt` device round-trip). -/
theorem tryToTrain_updates_iff_threshold (cfg : Config) (doTr : Nat → Option Nat)
    (f : Nat → Nat) (s : AlgoState) (hupd : 0 < cfg.numUpdatesPerTrainCall) :
    (0 < countEvent Event.doTrainingCall (evOf (tryToTrain cfg (fun n => some (f n)) s)) ↔
      cfg.minNumStepsBeforeTraining ≤ s.bufferCount)
    ∧ (s.bufferCount = cfg.minNumStepsBeforeTraining →
        countEvent Event.doTrainingCall (evOf (tryToTrain cfg (fun n => some (f n)) s)) =
          cfg.numUpdatesPerTrainCall)
    ∧ (s.bufferCount + 1 = cfg.minNumStepsBeforeTraining →
        tryToTrain cfg doTr s =
          .ok ((if cfg.ptuMode = "gpu_opt" then { s with device := Device.cpu } else s),
               [Event.trainAttempt])) := by
  have hev := (tryToTrain_total_events cfg f s).2
  refine ⟨?_, ?_, ?_⟩
  · rw [hev]
    by_cases hc : canTrain cfg s = true
    · rw [if_pos hc, countEvent_cons_ne _ _ _ (by intro h; cases h), countEvent_replicate]
      exact ⟨fun _ => of_decide_eq_true hc, fun _ => hupd⟩
    · rw [if_neg hc, countEvent_cons_ne _ _ _ (by intro h; cases h)]
      constructor
      · intro h
        exact absurd rfl (Nat.ne_of_gt h)
      · intro h
        exact absurd (decide_eq_true h) hc
  · intro heq
    have hc : canTrain cfg s = true := decide_eq_true (by omega)
    rw [hev, if_pos hc, countEvent_cons_ne _ _ _ (by intro h; cases h), countEvent_replicate]
  · intro hlt
    have hc : canTrain cfg s = false := by
      unfold canTrain
      rw [decide_eq_false_iff_not]
      omega
    unfold tryToTrain tryToTrainCore
    dsimp only
    rw [canTrain_ite, hc]
    by_cases hg : cfg.ptuMode = "gpu_opt" <;> simp [hg]

/-- Witness for C1 at a concrete configuration and state. -/
theorem tryToTrain_updates_iff_threshold_witness :
    0 < cfgBatchX.numUpdatesPerTrainCall ∧
    ((0 < countEvent Event.doTrainingCall
        (evOf (tryToTrain cfgBatchX (fun n => some n) { sZero with bufferCount := 1 })) ↔
      cfgBatchX.minNumStepsBeforeTraining ≤
        ({ sZero with bufferCount := 1 } : AlgoState).bufferCount)
    ∧ (({ sZero with bufferCount := 1 } : AlgoState).bufferCount =
          cfgBatchX.minNumStepsBeforeTraining →
        countEvent Event.doTrainingCall
          (evOf (tryToTrain cfgBatchX (fun n => some n) { sZero with bufferCount := 1 })) =
          cfgBatchX.numUpdatesPerTrainCall)
    ∧ (({ sZero with bufferCount := 1 } : AlgoState).bufferCount + 1 =
          cfgBatchX.minNumStepsBeforeTraining →
        tryToTrain cfgBatchX (fun _ => none) { sZero with bufferCount := 1 } =
          .ok ((if cfgBatchX.ptuMode = "gpu_opt"
                then { ({ sZero with bufferCount := 1 } : AlgoState) with device := Device.cpu }
                else { sZero with bufferCount := 1 }),
               [Event.trainAttempt]))) :=
  ⟨by decide,
   tryToTrain_updates_iff_threshold cfgBatchX (fun _ => none) (fun n => n)
     { sZero with bufferCount := 1 } (by decide)⟩

/-- Claim C4: `_handle_rollout_ending` increments the rollout counter and
notifies the replay buffer of the episode boundary unconditionally, while
a materialised trajectory is appended to the exploration-path log (and the
path builder reset) exactly when the in-progress trajectory is
non-empty. -/
theorem handleRolloutEnding_spec (s : AlgoState) :
    (handleRolloutEnding s).1.nRolloutsTotal = s.nRolloutsTotal + 1
    ∧ (handleRolloutEnding s).1.bufferEpisodes = s.bufferEpisodes + 1
    ∧ (handleRolloutEnding s).1.explorationPaths =
        s.explorationPaths ++
          (if 0 < s.currentPathBuilder.length then [s.currentPathBuilder] else [])
    ∧ (handleRolloutEnding s).1.currentPathBuilder =
        (if 0 < s.currentPathBuilder.length then [] else s.currentPathBuilder)
    ∧ (handleRolloutEnding s).2 = [Event.rolloutEnded] := by
  by_cases h : 0 < s.currentPathBuilder.length <;>
    simp [handleRolloutEnding, h]

theorem handleStep_builder_len (cfg : Config) (s : AlgoState) (tr : Transition) :
    (handleStep cfg s tr).currentPathBuilder.length = s.currentPathBuilder.length + 1 := by
  simp [handleStep]

theorem handleRolloutEnding_envState (s : AlgoState) :
    (handleRolloutEnding s).1.envState = s.envState := by
  by_cases h : 0 < s.currentPathBuilder.length <;> simp [handleRolloutEnding, h]

/-- Claim C3: in `_take_step_in_env` the rollout ends exactly when the
step's terminal flag is set or the in-progress trajectory (including this
step) has reached `max_path_length`; when it ends, the returned next
observation is the one produced by the fresh `training_env.reset()` of
`_start_new_rollout`, and otherwise it is the step's `next_observation`. -/
theorem takeStep_rollout_end_iff (cfg : Config) (env : Env) (pol : Policy)
    (s : AlgoState) (obs ps1 action es1 nextOb : Nat) (raw : Int) (term : Bool)
    (hga : pol.getAction s.polState s.nEnvStepsTotal obs = (ps1, action))
    (hst : env.step s.envState action = (es1, nextOb, raw, term)) :
    (Event.rolloutEnded ∈ (takeStepInEnv cfg env pol s obs).2.2 ↔
      (term = true ∨ cfg.maxPathLength ≤ s.currentPathBuilder.length + 1))
    ∧ ((term = true ∨ cfg.maxPathLength ≤ s.currentPathBuilder.length + 1) →
        (takeStepInEnv cfg env pol s obs).2.1 = (env.reset es1).2)
    ∧ (¬(term = true ∨ cfg.maxPathLength ≤ s.currentPathBuilder.length + 1) →
        (takeStepInEnv cfg env pol s obs).2.1 = nextOb) := by
  unfold takeStepInEnv
  dsimp only
  rw [hga]
  dsimp only
  rw [hst]
  dsimp only
  by_cases hcond : term = true ∨ cfg.maxPathLength ≤ s.currentPathBuilder.length + 1
  · have hb : (term || decide (cfg.maxPathLength ≤
        (handleStep cfg
          { s with polState := ps1, envState := es1, nEnvStepsTotal := s.nEnvStepsTotal + 1 }
          { observation := obs, action := action, reward := raw * cfg.rewardScale,
            nextObservation := nextOb, terminal := term }).currentPathBuilder.length)) = true := by
      rw [handleStep_builder_len]
      rcases hcond with h | h
      · rw [h]
        rfl
      · have : cfg.maxPathLength ≤ s.currentPathBuilder.length + 1 := h
        simp [this]
    rw [if_pos hb]
    refine ⟨⟨fun _ => hcond, fun _ => ?_⟩, fun _ => ?_, fun hn => absurd hcond hn⟩
    · rw [handleRolloutEnding_events]
      simp
    · show (env.reset (handleRolloutEnding _).1.envState).2 = (env.reset es1).2
      rw [handleRolloutEnding_envState]
      rfl
  · have hb : (term || decide (cfg.maxPathLength ≤
        (handleStep cfg
          { s with polState := ps1, envState := es1, nEnvStepsTotal := s.nEnvStepsTotal + 1 }
          { observation := obs, action := action, reward := raw * cfg.rewardScale,
            nextObservation := nextOb, terminal := term }).currentPathBuilder.length)) = false := by
      rw [handleStep_builder_len]
      push_neg at hcond
      rw [Bool.or_eq_false_iff]
      constructor
      · rcases Bool.eq_false_or_eq_true term with h | h
        · exact absurd h hcond.1
        · exact h
      · rw [decide_eq_false_iff_not]
        show ¬(cfg.maxPathLength ≤ s.currentPathBuilder.length + 1)
        have := hcond.2
        omega
    rw [if_neg (by rw [hb]; exact Bool.false_ne_true)]
    refine ⟨⟨fun hmem => ?_, fun hc => absurd hc hcond⟩, fun hc => absurd hc hcond, fun _ => rfl⟩
    exfalso
    rcases List.mem_singleton.mp hmem with h
    cases h

/-- Witness for C3 at a concrete environment, policy and state. -/
theorem takeStep_rollout_end_iff_witness :
    polX.getAction sZero.polState sZero.nEnvStepsTotal 0 = (0, 0)
    ∧ envX.step sZero.envState 0 = (0, 0, 1, false)
    ∧ ((Event.rolloutEnded ∈ (takeStepInEnv cfgBatchX envX polX sZero 0).2.2 ↔
         (false = true ∨ cfgBatchX.maxPathLength ≤ sZero.currentPathBuilder.length + 1))
      ∧ ((false = true ∨ cfgBatchX.maxPathLength ≤ sZero.currentPathBuilder.length + 1) →
          (takeStepInEnv cfgBatchX envX polX sZero 0).2.1 = (envX.reset 0).2)
      ∧ (¬(false = true ∨ cfgBatchX.maxPathLength ≤ sZero.currentPathBuilder.length + 1) →
          (takeStepInEnv cfgBatchX envX polX sZero 0).2.1 = 0)) :=
  ⟨rfl, rfl, takeStep_rollout_end_iff cfgBatchX envX polX sZero 0 0 0 0 0 1 false rfl rfl⟩

/-- Claim C7 (amended): in a `gpu_opt` deployment every invocation of
`_try_to_train` that returns normally leaves the components on the CPU —
whether or not updates were performed; but on the exceptional exit path
(an update raising partway through the burst) the CPU move is skipped,
since the source has no try/finally (see the counterexample). -/
theorem tryToTrain_ok_releases_accelerator (cfg : Config) (doTr : Nat → Option Nat)
    (s : AlgoState) (hmode : cfg.ptuMode = "gpu_opt")
    (hok : isErr (tryToTrain cfg doTr s) = false) :
    (stOf (tryToTrain cfg doTr s)).device = Device.cpu := by
  unfold tryToTrain at hok ⊢
  dsimp only at hok ⊢
  rcases hb : tryToTrainCore cfg doTr
      (if cfg.ptuMode = "gpu_opt" then { s with device := Device.gpu cfg.gpuId } else s) with
    ⟨s2, ev⟩ | ⟨s2, ev⟩
  · rw [hb] at hok
    simp [isErr] at hok
  · simp only [stOf]
    rw [if_pos hmode]

/-- Counterexample to C7 as stated: with `gpu_opt` mode and a
`_do_training` that raises on its first call, `_try_to_train` exits
exceptionally with the components still resident on the accelerator. -/
theorem tryToTrain_error_leaves_accelerator :
    isErr (tryToTrain cfgGpuX (fun _ => none) sZero) = true
    ∧ (stOf (tryToTrain cfgGpuX (fun _ => none) sZero)).device = Device.gpu 0 := by
  constructor <;> rfl

/-- Witness for the amended C7 at a concrete configuration and state. -/
theorem tryToTrain_ok_releases_accelerator_witness :
    cfgGpuX.ptuMode = "gpu_opt"
    ∧ isErr (tryToTrain cfgGpuX (fun n => some n) sZero) = false
    ∧ (stOf (tryToTrain cfgGpuX (fun n => some n) sZero)).device = Device.cpu :=
  ⟨rfl, by decide,
   tryToTrain_ok_releases_accelerator cfgGpuX (fun n => some n) sZero rfl (by decide)⟩

theorem bool_eq_false_of_ne_true {b : Bool} (h : ¬b = true) : b = false := by
  cases b
  · rfl
  · exact absurd rfl h

theorem tryToEval_evalRan_to_canEval (cfg : Config) (ctx : RunContext)
    (keys : Finset String) (epoch : Nat) (s : AlgoState)
    (hmem : Event.evalRan ∈ evOf (tryToEval cfg ctx keys epoch s)) :
    canEvaluate s = true := by
  by_cases hce : canEvaluate s = true
  · exact hce
  · exfalso
    have hfalse : canEvaluate s = false := bool_eq_false_of_ne_true hce
    unfold tryToEval at hmem
    by_cases hm : ctx.mpiAvailable = true ∧ ctx.rank = 0
    · rw [if_pos hm] at hmem
      by_cases h1 : cfg.saveExtraDataInterval = 0
      · rw [if_pos h1] at hmem
        simp only [evOf] at hmem
        exact List.not_mem_nil _ hmem
      · rw [if_neg h1] at hmem
        dsimp only at hmem
        by_cases h2 : cfg.numEpochsPerParamSave = 0
        · rw [if_pos h2] at hmem
          revert hmem
          split <;> intro hmem <;> simp only [evOf] at hmem
          · cases List.mem_singleton.mp hmem
          · exact List.not_mem_nil _ hmem
        · rw [if_neg h2, tryToEvalStats_skip _ _ _ hfalse] at hmem
          simp only [evOf] at hmem
          rcases List.mem_append.mp hmem with h3 | h3 <;> revert h3 <;> split <;> intro h3
          · cases List.mem_singleton.mp h3
          · exact List.not_mem_nil _ h3
          · cases List.mem_singleton.mp h3
          · exact List.not_mem_nil _ h3
    · rw [if_neg hm, tryToEvalStats_skip _ _ _ hfalse] at hmem
      simp only [evOf] at hmem
      exact List.not_mem_nil _ hmem

theorem tryToEval_flag (cfg : Config) (ctx : RunContext) (keys : Finset String)
    (epoch : Nat) (s : AlgoState)
    (hsafe : ctx.mpiAvailable = false ∨ ctx.rank ≠ 0 ∨
      (cfg.saveExtraDataInterval ≠ 0 ∧ cfg.numEpochsPerParamSave ≠ 0)) :
    (stOf (tryToEval cfg ctx keys epoch s)).needToUpdateEvalStatistics =
      (if canEvaluate s = true then true else s.needToUpdateEvalStatistics) := by
  rw [tryToEval_eq_stats cfg ctx keys epoch s hsafe]
  by_cases hce : canEvaluate s = true
  · rw [if_pos hce]
    rcases ho : s.oldTableKeys with _ | k
    · rw [tryToEvalStats_ok_eval _ _ _ hce (Or.inl ho)]
      rfl
    · by_cases hkk : keys = k
      · rw [tryToEvalStats_ok_eval _ _ _ hce (Or.inr (by rw [ho, hkk]))]
        rfl
      · rw [tryToEvalStats_raise _ _ _ k hce ho hkk]
        rfl
  · rw [if_neg hce, tryToEvalStats_skip _ _ _ (bool_eq_false_of_ne_true hce)]
    rfl

theorem tryToEval_evalRan_of_canEval (cfg : Config) (ctx : RunContext)
    (keys : Finset String) (epoch : Nat) (s : AlgoState)
    (hsafe : ctx.mpiAvailable = false ∨ ctx.rank ≠ 0 ∨
      (cfg.saveExtraDataInterval ≠ 0 ∧ cfg.numEpochsPerParamSave ≠ 0))
    (hce : canEvaluate s = true) :
    Event.evalRan ∈ evOf (tryToEval cfg ctx keys epoch s) := by
  rw [tryToEval_eq_stats cfg ctx keys epoch s hsafe]
  rcases ho : s.oldTableKeys with _ | k
  · rw [tryToEvalStats_ok_eval _ _ _ hce (Or.inl ho)]
    simp [evOf]
  · by_cases hkk : keys = k
    · rw [tryToEvalStats_ok_eval _ _ _ hce (Or.inr (by rw [ho, hkk]))]
      simp [evOf]
    · rw [tryToEvalStats_raise _ _ _ k hce ho hkk]
      simp [evOf]

/-- Claim C6: `_can_evaluate` holds exactly when the exploration-path log
of the current epoch is non-empty and the statistics are not flagged
stale; the statistics body of `_try_to_eval` runs exactly when
`_can_evaluate` holds; every completed evaluation flags the statistics
stale again, so an immediately following `_try_to_eval` (with no
intervening refresh by the learning algorithm) cannot evaluate again. -/
theorem canEvaluate_gating (cfg : Config) (ctx : RunContext) (keys keys2 : Finset String)
    (epoch epoch2 : Nat) (s : AlgoState)
    (hsafe : ctx.mpiAvailable = false ∨ ctx.rank ≠ 0 ∨
      (cfg.saveExtraDataInterval ≠ 0 ∧ cfg.numEpochsPerParamSave ≠ 0)) :
    (canEvaluate s = true ↔
      (s.explorationPaths ≠ [] ∧ s.needToUpdateEvalStatistics = false))
    ∧ (Event.evalRan ∈ evOf (tryToEval cfg ctx keys epoch s) ↔ canEvaluate s = true)
    ∧ ((stOf (tryToEval cfg ctx keys epoch s)).needToUpdateEvalStatistics =
        (if canEvaluate s = true then true else s.needToUpdateEvalStatistics))
    ∧ (canEvaluate s = true →
        Event.evalRan ∉
          evOf (tryToEval cfg ctx keys2 epoch2 (stOf (tryToEval cfg ctx keys epoch s)))) := by
  refine ⟨?_, ⟨tryToEval_evalRan_to_canEval cfg ctx keys epoch s,
               tryToEval_evalRan_of_canEval cfg ctx keys epoch s hsafe⟩,
          tryToEval_flag cfg ctx keys epoch s hsafe, ?_⟩
  · simp [canEvaluate, List.length_pos]
  · intro hce hmem
    have h2 := tryToEval_evalRan_to_canEval cfg ctx keys2 epoch2 _ hmem
    have hflag : (stOf (tryToEval cfg ctx keys epoch s)).needToUpdateEvalStatistics = true := by
      rw [tryToEval_flag cfg ctx keys epoch s hsafe, if_pos hce]
    have hcf : canEvaluate (stOf (tryToEval cfg ctx keys epoch s)) = false := by
      unfold canEvaluate
      rw [hflag]
      simp
    rw [hcf] at h2
    exact Bool.false_ne_true h2

/-- Witness for C6 at a concrete context, configuration and state. -/
theorem canEvaluate_gating_witness :
    (ctxNoMpi.mpiAvailable = false ∨ ctxNoMpi.rank ≠ 0 ∨
      (cfgBatchX.saveExtraDataInterval ≠ 0 ∧ cfgBatchX.numEpochsPerParamSave ≠ 0))
    ∧ ((canEvaluate sEvalX = true ↔
        (sEvalX.explorationPaths ≠ [] ∧ sEvalX.needToUpdateEvalStatistics = false))
      ∧ (Event.evalRan ∈
          evOf (tryToEval cfgBatchX ctxNoMpi ({"Epoch"} : Finset String) 0 sEvalX) ↔
        canEvaluate sEvalX = true)
      ∧ ((stOf (tryToEval cfgBatchX ctxNoMpi ({"Epoch"} : Finset String) 0 sEvalX)).needToUpdateEvalStatistics =
          (if canEvaluate sEvalX = true then true else sEvalX.needToUpdateEvalStatistics))
      ∧ (canEvaluate sEvalX = true →
          Event.evalRan ∉
            evOf (tryToEval cfgBatchX ctxNoMpi (∅ : Finset String) 1
              (stOf (tryToEval cfgBatchX ctxNoMpi ({"Epoch"} : Finset String) 0 sEvalX))))) :=
  ⟨Or.inl rfl,
   canEvaluate_gating cfgBatchX ctxNoMpi {"Epoch"} ∅ 0 1 sEvalX (Or.inl rfl)⟩

/-- Claim C8: during an eligible evaluation with an established key set
(`_old_table_keys` not `None`), a changed reported-key set makes
`_try_to_eval` raise the unimplemented-recovery error without emitting the
row, while an identical key set emits the row and re-records the key
set. -/
theorem tableKeys_schema_stability (cfg : Config) (ctx : RunContext)
    (keys : Finset String) (epoch : Nat) (s : AlgoState) (k : Finset String)
    (hsafe : ctx.mpiAvailable = false ∨ ctx.rank ≠ 0 ∨
      (cfg.saveExtraDataInterval ≠ 0 ∧ cfg.numEpochsPerParamSave ≠ 0))
    (hce : canEvaluate s = true) (hold : s.oldTableKeys = some k) :
    (keys ≠ k →
      isErr (tryToEval cfg ctx keys epoch s) = true
      ∧ Event.dumpTabular ∉ evOf (tryToEval cfg ctx keys epoch s))
    ∧ (keys = k →
      tryToEval cfg ctx keys epoch s =
        .ok ({ s with needToUpdateEvalStatistics := true, oldTableKeys := some keys },
             saveEvents cfg ctx epoch ++ [Event.evalRan] ++ [Event.dumpTabular])
      ∧ Event.dumpTabular ∈ evOf (tryToEval cfg ctx keys epoch s)) := by
  rw [tryToEval_eq_stats cfg ctx keys epoch s hsafe]
  constructor
  · intro hne
    rw [tryToEvalStats_raise keys s _ k hce hold hne]
    refine ⟨rfl, ?_⟩
    simp only [evOf, List.mem_append, List.mem_singleton]
    intro hc
    rcases hc with hc | hc
    · exact Bool.false_ne_true (saveEvents_save cfg ctx epoch _ hc)
    · cases hc
  · intro heq
    rw [tryToEvalStats_ok_eval keys s _ hce (Or.inr (by rw [hold, heq]))]
    refine ⟨rfl, ?_⟩
    simp [evOf]

/-- Witness for C8 at a concrete state with an established key set. -/
theorem tableKeys_schema_stability_witness :
    (ctxNoMpi.mpiAvailable = false ∨ ctxNoMpi.rank ≠ 0 ∨
      (cfgBatchX.saveExtraDataInterval ≠ 0 ∧ cfgBatchX.numEpochsPerParamSave ≠ 0))
    ∧ canEvaluate sEvalX = true
    ∧ sEvalX.oldTableKeys = some ({"Epoch"} : Finset String)
    ∧ ((({"Epoch"} : Finset String) ≠ ({"Epoch"} : Finset String) →
        isErr (tryToEval cfgBatchX ctxNoMpi ({"Epoch"} : Finset String) 0 sEvalX) = true
        ∧ Event.dumpTabular ∉
            evOf (tryToEval cfgBatchX ctxNoMpi ({"Epoch"} : Finset String) 0 sEvalX))
      ∧ (({"Epoch"} : Finset String) = ({"Epoch"} : Finset String) →
        tryToEval cfgBatchX ctxNoMpi ({"Epoch"} : Finset String) 0 sEvalX =
          .ok ({ sEvalX with needToUpdateEvalStatistics := true,
                             oldTableKeys := some ({"Epoch"} : Finset String) },
               saveEvents cfgBatchX ctxNoMpi 0 ++ [Event.evalRan] ++ [Event.dumpTabular])
        ∧ Event.dumpTabular ∈
            evOf (tryToEval cfgBatchX ctxNoMpi ({"Epoch"} : Finset String) 0 sEvalX))) :=
  ⟨Or.inl rfl, by decide, rfl,
   tableKeys_schema_stability cfgBatchX ctxNoMpi {"Epoch"} 0 sEvalX {"Epoch"}
     (Or.inl rfl) (by decide) rfl⟩

/-- Counterexample to C9 as stated: with a valid `collection_mode` and
`num_epochs_per_eval = 0`, `num_epochs_per_param_save = 0`, none of the
claim's three failure conditions holds (`0` is an exact multiple of `0`),
yet construction fails, because the Python `%` in the divisibility assert
raises `ZeroDivisionError`. -/
theorem initAlgo_fails_outside_claimed_conditions :
    initAlgo ctxNoMpi "" argsZeroEval = none ∧ ¬c9ClaimedFailure argsZeroEval := by
  constructor
  · rfl
  · intro h
    rcases h with h | h | h
    · exact h (Or.inl rfl)
    · exact absurd h.1 (by decide)
    · exact h (dvd_refl 0)

/-- Claim C9 (amended): construction of the orchestrator fails exactly
when `collection_mode` is neither `"online"` nor `"batch"`; or
`collection_mode` is `"batch"` and `num_updates_per_epoch` is not
provided; or MPI is available with an accelerator mode configured and
`num_gpus = 0` (the rank-modulo raises); or `num_epochs_per_eval = 0`
(the divisibility assert's `%` raises, even when
`num_epochs_per_param_save = 0` is a multiple of it); or
`num_epochs_per_param_save` is not a multiple of the (nonzero)
`num_epochs_per_eval`. -/
theorem initAlgo_failure_iff (ctx : RunContext) (ptuMode : String) (a : InitArgs) :
    initAlgo ctx ptuMode a = none ↔
      (¬(a.collectionMode = "online" ∨ a.collectionMode = "batch")
       ∨ (a.collectionMode = "batch" ∧ a.numUpdatesPerEpoch = none)
       ∨ (ctx.mpiAvailable = true ∧ ptuMode ≠ "" ∧ a.numGpus = 0)
       ∨ a.numEpochsPerEval = 0
       ∨ a.numEpochsPerParamSave % a.numEpochsPerEval ≠ 0) := by
  unfold initAlgo
  by_cases h1 : ¬(a.collectionMode = "online" ∨ a.collectionMode = "batch")
  · rw [if_pos h1]
    simp [h1]
  · rw [if_neg h1]
    by_cases h2 : a.collectionMode = "batch" ∧ a.numUpdatesPerEpoch = none
    · rw [if_pos h2]
      simp [h2]
    · rw [if_neg h2]
      by_cases h3 : ctx.mpiAvailable = true ∧ ptuMode ≠ "" ∧ a.numGpus = 0
      · rw [if_pos h3]
        simp [h3]
      · rw [if_neg h3]
        by_cases h4 : a.numEpochsPerEval = 0
        · rw [if_pos h4]
          simp [h4]
        · rw [if_neg h4]
          by_cases h5 : a.numEpochsPerParamSave % a.numEpochsPerEval ≠ 0
          · rw [if_pos h5]
            simp [h5]
          · rw [if_neg h5]
            simp [h1, h2, h3, h4, h5]

theorem filter_all (p : Event → Bool) (l : List Event) (h : ∀ e ∈ l, p e = true) :
    l.filter p = l := by
  induction l with
  | nil => rfl
  | cons x xs ih =>
    rw [List.filter_cons, if_pos (h x (List.mem_cons_self x xs)),
        ih (fun e he => h e (List.mem_cons_of_mem x he))]

theorem filter_upd_replicate (n : Nat) :
    (List.replicate n Event.doTrainingCall).filter isSampleOrUpdate =
      List.replicate n Event.doTrainingCall :=
  filter_all _ _ (fun e he => by rw [List.eq_of_mem_replicate he]; rfl)

theorem tryToTrain_total_filter_upd (cfg : Config) (f : Nat → Nat) (s : AlgoState) :
    (evOf (tryToTrain cfg (fun n => some (f n)) s)).filter isSampleOrUpdate =
      (if canTrain cfg s
       then List.replicate cfg.numUpdatesPerTrainCall Event.doTrainingCall
       else []) := by
  rw [(tryToTrain_total_events cfg f s).2]
  by_cases hc : canTrain cfg s = true
  · rw [if_pos hc, List.filter_cons,
        if_neg (show ¬(isSampleOrUpdate Event.trainAttempt = true) from Bool.false_ne_true),
        filter_upd_replicate]
  · rw [if_neg hc, List.filter_cons,
        if_neg (show ¬(isSampleOrUpdate Event.trainAttempt = true) from Bool.false_ne_true)]
    rfl

theorem onlineLoop_filter_sta (cfg : Config) (env : Env) (pol : Policy) (f : Nat → Nat) :
    ∀ (k : Nat) (s : AlgoState) (obs : Nat),
      (evOf (onlineLoop cfg env pol (fun n => some (f n)) k s obs)).filter
          isSampleOrTrainAttempt =
        List.flatten (List.replicate k [Event.envStep, Event.trainAttempt]) := by
  intro k
  induction k with
  | zero => intro s obs; rfl
  | succ k ih =>
    intro s obs
    unfold onlineLoop
    dsimp only
    have hok := (tryToTrain_total_events cfg f (takeStepInEnv cfg env pol s obs).1).1
    have heq := ok_of_not_isErr _ hok
    rw [heq]
    dsimp only
    have hfil := tryToTrain_filter_sta cfg (fun n => some (f n))
      (takeStepInEnv cfg env pol s obs).1
    have ihk := ih (stOf (tryToTrain cfg (fun n => some (f n))
        (takeStepInEnv cfg env pol s obs).1)) (takeStepInEnv cfg env pol s obs).2.1
    rcases hrec : onlineLoop cfg env pol (fun n => some (f n)) k
        (stOf (tryToTrain cfg (fun n => some (f n)) (takeStepInEnv cfg env pol s obs).1))
        (takeStepInEnv cfg env pol s obs).2.1 with ⟨s3, ev3⟩ | ⟨s3, ev3⟩ <;>
      rw [hrec] at ihk <;>
      simp only [evOf] at ihk hfil ⊢ <;>
      rw [List.filter_append, List.filter_append, takeStep_filter_sta, hfil, ihk,
          List.replicate_succ, List.flatten_cons] <;>
      rfl

theorem batchSteps_filter_gen (cfg : Config) (env : Env) (pol : Policy) (p : Event → Bool)
    (hstep : ∀ (s : AlgoState) (obs : Nat),
      ((takeStepInEnv cfg env pol s obs).2.2).filter p = [Event.envStep]) :
    ∀ (k : Nat) (s : AlgoState) (obs : Nat),
      ((batchStepsLoop cfg env pol k s obs).2.2).filter p =
        List.replicate k Event.envStep := by
  intro k
  induction k with
  | zero => intro s obs; rfl
  | succ k ih =>
    intro s obs
    unfold batchStepsLoop
    dsimp only
    rw [List.filter_append, hstep, ih, List.replicate_succ]
    rfl

theorem batchSteps_filter_save (cfg : Config) (env : Env) (pol : Policy) :
    ∀ (k : Nat) (s : AlgoState) (obs : Nat),
      ((batchStepsLoop cfg env pol k s obs).2.2).filter isSaveEvent = [] := by
  intro k
  induction k with
  | zero => intro s obs; rfl
  | succ k ih =>
    intro s obs
    unfold batchStepsLoop
    dsimp only
    rw [List.filter_append, takeStep_filter_save, ih]
    rfl

theorem batchSteps_buffer (cfg : Config) (env : Env) (pol : Policy) :
    ∀ (k : Nat) (s : AlgoState) (obs : Nat),
      s.bufferCount + k ≤ cfg.replayBufferSize →
      (batchStepsLoop cfg env pol k s obs).1.bufferCount = s.bufferCount + k := by
  intro k
  induction k with
  | zero => intro s obs _; rfl
  | succ k ih =>
    intro s obs hcap
    unfold batchStepsLoop
    dsimp only
    rw [ih (takeStepInEnv cfg env pol s obs).1 (takeStepInEnv cfg env pol s obs).2.1
      (by rw [takeStepInEnv_buffer, Nat.min_eq_left (by omega)]; omega)]
    rw [takeStepInEnv_buffer, Nat.min_eq_left (by omega)]
    omega

theorem onlineEpoch_filter_sta (cfg : Config) (ctx : RunContext) (env : Env) (pol : Policy)
    (f : Nat → Nat) (keys : Finset String) (epoch : Nat) (s : AlgoState) :
    (evOf (onlineEpoch cfg ctx env pol (fun n => some (f n)) keys epoch s)).filter
        isSampleOrTrainAttempt =
      List.flatten (List.replicate cfg.numEnvStepsPerEpoch
        [Event.envStep, Event.trainAttempt]) := by
  unfold onlineEpoch
  dsimp only
  have hloop := onlineLoop_filter_sta cfg env pol f cfg.numEnvStepsPerEpoch
    (startNewRollout env pol (startEpochState s)).1
    (startNewRollout env pol (startEpochState s)).2
  rcases hl : onlineLoop cfg env pol (fun n => some (f n)) cfg.numEnvStepsPerEpoch
      (startNewRollout env pol (startEpochState s)).1
      (startNewRollout env pol (startEpochState s)).2 with ⟨s3, ev⟩ | ⟨s3, ev⟩ <;>
    rw [hl] at hloop <;> simp only [evOf] at hloop ⊢
  · exact hloop
  · have hev4 := tryToEval_filter_sta cfg ctx keys epoch s3
    rcases he : tryToEval cfg ctx keys epoch s3 with ⟨s4, ev4⟩ | ⟨s4, ev4⟩ <;>
      rw [he] at hev4 <;> simp only [evOf] at hev4 ⊢ <;>
      rw [List.filter_append, hloop, hev4, List.append_nil]

theorem batchEpoch_filter_sta (cfg : Config) (ctx : RunContext) (env : Env) (pol : Policy)
    (doTr : Nat → Option Nat) (keys : Finset String) (epoch : Nat) (s : AlgoState) :
    (evOf (batchEpoch cfg ctx env pol doTr keys epoch s)).filter isSampleOrTrainAttempt =
      List.replicate cfg.numEnvStepsPerEpoch Event.envStep ++ [Event.trainAttempt] := by
  unfold batchEpoch
  dsimp only
  have hsteps := batchSteps_filter_gen cfg env pol isSampleOrTrainAttempt
    (takeStep_filter_sta cfg env pol) cfg.numEnvStepsPerEpoch
    (startNewRollout env pol (startEpochState s)).1
    (startNewRollout env pol (startEpochState s)).2
  have htr := tryToTrain_filter_sta cfg doTr
    (batchStepsLoop cfg env pol cfg.numEnvStepsPerEpoch
      (startNewRollout env pol (startEpochState s)).1
      (startNewRollout env pol (startEpochState s)).2).1
  rcases ht : tryToTrain cfg doTr
      (batchStepsLoop cfg env pol cfg.numEnvStepsPerEpoch
        (startNewRollout env pol (startEpochState s)).1
        (startNewRollout env pol (startEpochState s)).2).1 with ⟨s4, ev4⟩ | ⟨s4, ev4⟩ <;>
    rw [ht] at htr <;> simp only [evOf] at htr ⊢
  · rw [List.filter_append, hsteps, htr]
  · by_cases hep : epoch % cfg.numEpochsPerEval = 0
    · rw [if_pos hep]
      have hev5 := tryToEval_filter_sta cfg ctx keys epoch s4
      rcases he : tryToEval cfg ctx keys epoch s4 with ⟨s5, ev5⟩ | ⟨s5, ev5⟩ <;>
        rw [he] at hev5 <;> simp only [evOf] at hev5 ⊢ <;>
        rw [List.filter_append, List.filter_append, hsteps, htr, hev5, List.append_nil]
    · rw [if_neg hep]
      simp only [evOf]
      rw [List.filter_append, hsteps, htr]

/-- Claim C5: in online mode each epoch's trace interleaves exactly one
training attempt immediately after every one of the
`num_env_steps_per_epoch` environment steps; in batch mode each epoch's
trace is all environment steps followed by exactly one training
attempt. -/
theorem trainingAttemptSchedule (cfg : Config) (ctx : RunContext) (env : Env)
    (pol : Policy) (f : Nat → Nat) (doTr : Nat → Option Nat) (keys : Finset String)
    (epoch : Nat) (s : AlgoState) :
    ((evOf (onlineEpoch cfg ctx env pol (fun n => some (f n)) keys epoch s)).filter
        isSampleOrTrainAttempt =
      List.flatten (List.replicate cfg.numEnvStepsPerEpoch
        [Event.envStep, Event.trainAttempt]))
    ∧ ((evOf (batchEpoch cfg ctx env pol doTr keys epoch s)).filter
        isSampleOrTrainAttempt =
      List.replicate cfg.numEnvStepsPerEpoch Event.envStep ++ [Event.trainAttempt]) :=
  ⟨onlineEpoch_filter_sta cfg ctx env pol f keys epoch s,
   batchEpoch_filter_sta cfg ctx env pol doTr keys epoch s⟩

theorem onlineLoop_warmup (cfg : Config) (env : Env) (pol : Policy) (f : Nat → Nat) :
    ∀ (k : Nat) (s : AlgoState) (obs : Nat),
      0 < k → s.bufferCount + k = cfg.minNumStepsBeforeTraining →
      cfg.minNumStepsBeforeTraining ≤ cfg.replayBufferSize →
      (evOf (onlineLoop cfg env pol (fun n => some (f n)) k s obs)).filter
          isSampleOrUpdate =
        List.replicate k Event.envStep ++
          List.replicate cfg.numUpdatesPerTrainCall Event.doTrainingCall := by
  intro k
  induction k with
  | zero => intro s obs h0; exact absurd h0 (Nat.lt_irrefl 0)
  | succ k ih =>
    intro s obs _ hsum hcap
    unfold onlineLoop
    dsimp only
    have hbuf1 : (takeStepInEnv cfg env pol s obs).1.bufferCount = s.bufferCount + 1 := by
      rw [takeStepInEnv_buffer, Nat.min_eq_left (by omega)]
    have hok := (tryToTrain_total_events cfg f (takeStepInEnv cfg env pol s obs).1).1
    have heq := ok_of_not_isErr _ hok
    rw [heq]
    dsimp only
    rcases Nat.eq_zero_or_pos k with hk0 | hkpos
    · subst hk0
      simp only [onlineLoop]
      have hct : canTrain cfg (takeStepInEnv cfg env pol s obs).1 = true :=
        decide_eq_true (by rw [hbuf1]; omega)
      have hfil := tryToTrain_total_filter_upd cfg f (takeStepInEnv cfg env pol s obs).1
      rw [if_pos hct] at hfil
      simp only [evOf] at hfil ⊢
      rw [List.append_nil, List.filter_append, takeStep_filter_upd, hfil]
      rfl
    · have hct : canTrain cfg (takeStepInEnv cfg env pol s obs).1 = false := by
        unfold canTrain
        rw [decide_eq_false_iff_not, hbuf1]
        omega
      have hfil := tryToTrain_total_filter_upd cfg f (takeStepInEnv cfg env pol s obs).1
      rw [if_neg (by rw [hct]; exact Bool.false_ne_true)] at hfil
      have ihk := ih
        (stOf (tryToTrain cfg (fun n => some (f n)) (takeStepInEnv cfg env pol s obs).1))
        ((takeStepInEnv cfg env pol s obs).2.1) hkpos
        (by rw [tryToTrain_buffer, hbuf1]; omega) hcap
      rcases hrec : onlineLoop cfg env pol (fun n => some (f n)) k
          (stOf (tryToTrain cfg (fun n => some (f n)) (takeStepInEnv cfg env pol s obs).1))
          ((takeStepInEnv cfg env pol s obs).2.1) with ⟨s3, ev3⟩ | ⟨s3, ev3⟩ <;>
        rw [hrec] at ihk <;>
        simp only [evOf] at ihk hfil ⊢ <;>
        rw [List.filter_append, List.filter_append, takeStep_filter_upd, hfil, ihk,
            List.replicate_succ] <;>
        rfl

/-- Claim C2 (amended): with the defaulted threshold
(`min_num_steps_before_training = num_env_steps_per_epoch`) and a fresh
replay buffer, epoch 0 performs no training update until after its final
environment step, and the training attempt that follows the final step
does perform its full update burst — in online mode all
`num_updates_per_train_call` updates come after the last of the
`num_env_steps_per_epoch` steps, and in batch mode the single end-of-epoch
attempt trains.  So the first epoch does train, at its very end, rather
than never. -/
theorem firstEpochTrainsAtEnd (cfg : Config) (ctx : RunContext) (env : Env)
    (pol : Policy) (f : Nat → Nat) (keys : Finset String) (s : AlgoState)
    (hmin : cfg.minNumStepsBeforeTraining = cfg.numEnvStepsPerEpoch)
    (hpos : 0 < cfg.numEnvStepsPerEpoch)
    (hcap : cfg.numEnvStepsPerEpoch ≤ cfg.replayBufferSize)
    (hbuf : s.bufferCount = 0) :
    ((evOf (onlineEpoch cfg ctx env pol (fun n => some (f n)) keys 0 s)).filter
        isSampleOrUpdate =
      List.replicate cfg.numEnvStepsPerEpoch Event.envStep ++
        List.replicate cfg.numUpdatesPerTrainCall Event.doTrainingCall)
    ∧ ((evOf (batchEpoch cfg ctx env pol (fun n => some (f n)) keys 0 s)).filter
        isSampleOrUpdate =
      List.replicate cfg.numEnvStepsPerEpoch Event.envStep ++
        List.replicate cfg.numUpdatesPerTrainCall Event.doTrainingCall) := by
  constructor
  · unfold onlineEpoch
    dsimp only
    have hb0 : (startNewRollout env pol (startEpochState s)).1.bufferCount = 0 := by
      rw [startNewRollout_buffer]
      exact hbuf
    have hloop := onlineLoop_warmup cfg env pol f cfg.numEnvStepsPerEpoch
      (startNewRollout env pol (startEpochState s)).1
      (startNewRollout env pol (startEpochState s)).2
      hpos (by rw [hb0]; omega) (by omega)
    rcases hl : onlineLoop cfg env pol (fun n => some (f n)) cfg.numEnvStepsPerEpoch
        (startNewRollout env pol (startEpochState s)).1
        (startNewRollout env pol (startEpochState s)).2 with ⟨s3, ev⟩ | ⟨s3, ev⟩ <;>
      rw [hl] at hloop <;> simp only [evOf] at hloop ⊢
    · exact hloop
    · have hev4 := tryToEval_filter_upd cfg ctx keys 0 s3
      rcases he : tryToEval cfg ctx keys 0 s3 with ⟨s4, ev4⟩ | ⟨s4, ev4⟩ <;>
        rw [he] at hev4 <;> simp only [evOf] at hev4 ⊢ <;>
        rw [List.filter_append, hloop, hev4, List.append_nil]
  · unfold batchEpoch
    dsimp only
    have hb0 : (startNewRollout env pol (startEpochState s)).1.bufferCount = 0 := by
      rw [startNewRollout_buffer]
      exact hbuf
    have hsb := batchSteps_buffer cfg env pol cfg.numEnvStepsPerEpoch
      (startNewRollout env pol (startEpochState s)).1
      (startNewRollout env pol (startEpochState s)).2
      (by rw [hb0]; omega)
    have hsteps := batchSteps_filter_gen cfg env pol isSampleOrUpdate
      (takeStep_filter_upd cfg env pol) cfg.numEnvStepsPerEpoch
      (startNewRollout env pol (startEpochState s)).1
      (startNewRollout env pol (startEpochState s)).2
    have hct : canTrain cfg
        (batchStepsLoop cfg env pol cfg.numEnvStepsPerEpoch
          (startNewRollout env pol (startEpochState s)).1
          (startNewRollout env pol (startEpochState s)).2).1 = true :=
      decide_eq_true (by rw [hsb, hb0]; omega)
    have htr := tryToTrain_total_filter_upd cfg f
      (batchStepsLoop cfg env pol cfg.numEnvStepsPerEpoch
        (startNewRollout env pol (startEpochState s)).1
        (startNewRollout env pol (startEpochState s)).2).1
    rw [if_pos hct] at htr
    have hokT := (tryToTrain_total_events cfg f
      (batchStepsLoop cfg env pol cfg.numEnvStepsPerEpoch
        (startNewRollout env pol (startEpochState s)).1
        (startNewRollout env pol (startEpochState s)).2).1).1
    have heqT := ok_of_not_isErr _ hokT
    rw [heqT]
    dsimp only
    rw [if_pos (Nat.zero_mod cfg.numEpochsPerEval)]
    have hev5 := tryToEval_filter_upd cfg ctx keys 0
      (stOf (tryToTrain cfg (fun n => some (f n))
        (batchStepsLoop cfg env pol cfg.numEnvStepsPerEpoch
          (startNewRollout env pol (startEpochState s)).1
          (startNewRollout env pol (startEpochState s)).2).1))
    rcases he : tryToEval cfg ctx keys 0
        (stOf (tryToTrain cfg (fun n => some (f n))
          (batchStepsLoop cfg env pol cfg.numEnvStepsPerEpoch
            (startNewRollout env pol (startEpochState s)).1
            (startNewRollout env pol (startEpochState s)).2).1)) with
      ⟨s5, ev5⟩ | ⟨s5, ev5⟩ <;>
      rw [he] at hev5 <;> simp only [evOf] at hev5 htr ⊢ <;>
      rw [List.filter_append, List.filter_append, hsteps, htr, hev5, List.append_nil]

/-- Counterexample to C2 as stated: a one-epoch batch-mode run starting at
epoch 0 with the defaulted threshold (`min_num_steps_before_training =
num_env_steps_per_epoch = 1`) performs one `_do_training` update during
its very first (and only) epoch — the buffer reaches exactly the
threshold by the end of the epoch's collection. -/
theorem firstEpoch_performs_update_counterexample :
    cfgBatchX.minNumStepsBeforeTraining = cfgBatchX.numEnvStepsPerEpoch
    ∧ cfgBatchX.numEpochs = 1
    ∧ countEvent Event.doTrainingCall
        (evOf (train cfgBatchX ctxNoMpi envX polX (fun n => some n) (fun _ => ∅) 0 sZero))
        = 1 := by
  refine ⟨rfl, rfl, ?_⟩
  decide

/-- Witness for the amended C2 at a concrete configuration and state. -/
theorem firstEpochTrainsAtEnd_witness :
    cfgBatchX.minNumStepsBeforeTraining = cfgBatchX.numEnvStepsPerEpoch
    ∧ 0 < cfgBatchX.numEnvStepsPerEpoch
    ∧ cfgBatchX.numEnvStepsPerEpoch ≤ cfgBatchX.replayBufferSize
    ∧ sZero.bufferCount = 0
    ∧ (((evOf (onlineEpoch cfgBatchX ctxNoMpi envX polX (fun n => some n)
          (∅ : Finset String) 0 sZero)).filter isSampleOrUpdate =
        List.replicate cfgBatchX.numEnvStepsPerEpoch Event.envStep ++
          List.replicate cfgBatchX.numUpdatesPerTrainCall Event.doTrainingCall)
      ∧ ((evOf (batchEpoch cfgBatchX ctxNoMpi envX polX (fun n => some n)
          (∅ : Finset String) 0 sZero)).filter isSampleOrUpdate =
        List.replicate cfgBatchX.numEnvStepsPerEpoch Event.envStep ++
          List.replicate cfgBatchX.numUpdatesPerTrainCall Event.doTrainingCall)) :=
  ⟨rfl, by decide, by decide, rfl,
   firstEpochTrainsAtEnd cfgBatchX ctxNoMpi envX polX (fun n => n) ∅ sZero
     rfl (by decide) (by decide) rfl⟩

theorem onlineLoop_filter_save (cfg : Config) (env : Env) (pol : Policy)
    (doTr : Nat → Option Nat) :
    ∀ (k : Nat) (s : AlgoState) (obs : Nat),
      (evOf (onlineLoop cfg env pol doTr k s obs)).filter isSaveEvent = [] := by
  intro k
  induction k with
  | zero => intro s obs; rfl
  | succ k ih =>
    intro s obs
    unfold onlineLoop
    dsimp only
    have htr := tryToTrain_filter_save cfg doTr (takeStepInEnv cfg env pol s obs).1
    rcases ht : tryToTrain cfg doTr (takeStepInEnv cfg env pol s obs).1 with
      ⟨s2, ev2⟩ | ⟨s2, ev2⟩ <;>
      rw [ht] at htr <;> dsimp only <;> simp only [evOf] at htr
    · simp only [evOf]
      rw [List.filter_append, takeStep_filter_save, htr]
      rfl
    · have ihk := ih s2 (takeStepInEnv cfg env pol s obs).2.1
      rcases hrec : onlineLoop cfg env pol doTr k s2 (takeStepInEnv cfg env pol s obs).2.1
        with ⟨s3, ev3⟩ | ⟨s3, ev3⟩ <;>
        rw [hrec] at ihk <;>
        simp only [evOf] at ihk ⊢ <;>
        rw [List.filter_append, List.filter_append, takeStep_filter_save, htr, ihk] <;>
        rfl

theorem onlineEpoch_filter_save (cfg : Config) (ctx : RunContext) (env : Env)
    (pol : Policy) (doTr : Nat → Option Nat) (keys : Finset String) (epoch : Nat)
    (s : AlgoState) (hmpi : ctx.mpiAvailable = false) :
    (evOf (onlineEpoch cfg ctx env pol doTr keys epoch s)).filter isSaveEvent = [] := by
  unfold onlineEpoch
  dsimp only
  have hloop := onlineLoop_filter_save cfg env pol doTr cfg.numEnvStepsPerEpoch
    (startNewRollout env pol (startEpochState s)).1
    (startNewRollout env pol (startEpochState s)).2
  rcases hl : onlineLoop cfg env pol doTr cfg.numEnvStepsPerEpoch
      (startNewRollout env pol (startEpochState s)).1
      (startNewRollout env pol (startEpochState s)).2 with ⟨s3, ev⟩ | ⟨s3, ev⟩ <;>
    rw [hl] at hloop <;> simp only [evOf] at hloop ⊢
  · exact hloop
  · have hev4 := tryToEval_filter_save_nompi cfg ctx keys epoch s3 hmpi
    rcases he : tryToEval cfg ctx keys epoch s3 with ⟨s4, ev4⟩ | ⟨s4, ev4⟩ <;>
      rw [he] at hev4 <;> simp only [evOf] at hev4 ⊢ <;>
      rw [List.filter_append, hloop, hev4] <;>
      rfl

theorem batchEpoch_filter_save (cfg : Config) (ctx : RunContext) (env : Env)
    (pol : Policy) (doTr : Nat → Option Nat) (keys : Finset String) (epoch : Nat)
    (s : AlgoState) (hmpi : ctx.mpiAvailable = false) :
    (evOf (batchEpoch cfg ctx env pol doTr keys epoch s)).filter isSaveEvent = [] := by
  unfold batchEpoch
  dsimp only
  have hsteps := batchSteps_filter_save cfg env pol cfg.numEnvStepsPerEpoch
    (startNewRollout env pol (startEpochState s)).1
    (startNewRollout env pol (startEpochState s)).2
  have htr := tryToTrain_filter_save cfg doTr
    (batchStepsLoop cfg env pol cfg.numEnvStepsPerEpoch
      (startNewRollout env pol (startEpochState s)).1
      (startNewRollout env pol (startEpochState s)).2).1
  rcases ht : tryToTrain cfg doTr
      (batchStepsLoop cfg env pol cfg.numEnvStepsPerEpoch
        (startNewRollout env pol (startEpochState s)).1
        (startNewRollout env pol (startEpochState s)).2).1 with ⟨s4, ev4⟩ | ⟨s4, ev4⟩ <;>
    rw [ht] at htr <;> simp only [evOf] at htr ⊢
  · rw [List.filter_append, hsteps, htr]
    rfl
  · by_cases hep : epoch % cfg.numEpochsPerEval = 0
    · rw [if_pos hep]
      have hev5 := tryToEval_filter_save_nompi cfg ctx keys epoch s4 hmpi
      rcases he : tryToEval cfg ctx keys epoch s4 with ⟨s5, ev5⟩ | ⟨s5, ev5⟩ <;>
        rw [he] at hev5 <;> simp only [evOf] at hev5 ⊢ <;>
        rw [List.filter_append, List.filter_append, hsteps, htr, hev5] <;>
        rfl
    · rw [if_neg hep]
      simp only [evOf]
      rw [List.filter_append, hsteps, htr]
      rfl

theorem epochsLoop_filter_nil (body : Nat → AlgoState → RunRes) (p : Event → Bool)
    (h : ∀ (e : Nat) (st : AlgoState), (evOf (body e st)).filter p = []) :
    ∀ (e0 k : Nat) (st : AlgoState),
      (evOf (epochsLoop body e0 k st)).filter p = [] := by
  intro e0 k
  induction k generalizing e0 with
  | zero => intro st; rfl
  | succ k ih =>
    intro st
    unfold epochsLoop
    have hb := h e0 st
    rcases hbody : body e0 st with ⟨s1, ev⟩ | ⟨s1, ev⟩ <;>
      rw [hbody] at hb <;> dsimp only <;> simp only [evOf] at hb
    · simp only [evOf]
      exact hb
    · have ihk := ih (e0 + 1) s1
      rcases hrec : epochsLoop body (e0 + 1) k s1 with ⟨s2, ev2⟩ | ⟨s2, ev2⟩ <;>
        rw [hrec] at ihk <;>
        simp only [evOf] at ihk ⊢ <;>
        rw [List.filter_append, hb, ihk] <;>
        rfl

/-- Claim C10: when the MPI import failed (`MPI is None`), a full `train`
run — any configuration, any start epoch, either collection mode, even a
single-process run — performs no persistence side effect: no extra-data
save, no numbered parameter snapshot, and no initial epoch −1 snapshot. -/
theorem noPersistenceWithoutMpi (cfg : Config) (ctx : RunContext) (env : Env)
    (pol : Policy) (doTr : Nat → Option Nat) (keysOf : Nat → Finset String)
    (startEp : Nat) (s : AlgoState) (hmpi : ctx.mpiAvailable = false) :
    (evOf (train cfg ctx env pol doTr keysOf startEp s)).filter isSaveEvent = [] := by
  unfold train
  dsimp only
  rw [if_neg (show ¬(startEp = 0 ∧ ctx.mpiAvailable = true ∧ ctx.rank = 0) from
    fun hc => Bool.false_ne_true (hmpi ▸ hc.2.1))]
  by_cases h1 : cfg.collectionMode = "online"
  · rw [if_pos h1]
    have htr : (evOf (trainOnline cfg ctx env pol doTr keysOf startEp
        { s with trainingMode := false,
                 nEnvStepsTotal := startEp * cfg.numEnvStepsPerEpoch })).filter
        isSaveEvent = [] := by
      unfold trainOnline
      exact epochsLoop_filter_nil _ _
        (fun e st => onlineEpoch_filter_save cfg ctx env pol doTr (keysOf e) e st hmpi) _ _ _
    rcases ho : trainOnline cfg ctx env pol doTr keysOf startEp
        { s with trainingMode := false,
                 nEnvStepsTotal := startEp * cfg.numEnvStepsPerEpoch } with
      ⟨s2, ev⟩ | ⟨s2, ev⟩ <;>
      rw [ho] at htr <;> simp only [evOf] at htr ⊢ <;>
      rw [List.nil_append] <;> exact htr
  · rw [if_neg h1]
    by_cases h2 : cfg.collectionMode = "batch"
    · rw [if_pos h2]
      have htr : (evOf (trainBatch cfg ctx env pol doTr keysOf startEp
          { s with trainingMode := false,
                   nEnvStepsTotal := startEp * cfg.numEnvStepsPerEpoch })).filter
          isSaveEvent = [] := by
        unfold trainBatch
        exact epochsLoop_filter_nil _ _
          (fun e st => batchEpoch_filter_save cfg ctx env pol doTr (keysOf e) e st hmpi) _ _ _
      rcases ho : trainBatch cfg ctx env pol doTr keysOf startEp
          { s with trainingMode := false,
                   nEnvStepsTotal := startEp * cfg.numEnvStepsPerEpoch } with
        ⟨s2, ev⟩ | ⟨s2, ev⟩ <;>
        rw [ho] at htr <;> simp only [evOf] at htr ⊢ <;>
        rw [List.nil_append] <;> exact htr
    · rw [if_neg h2]
      rfl

/-- Witness for C10 at a concrete MPI-less run. -/
theorem noPersistenceWithoutMpi_witness :
    ctxNoMpi.mpiAvailable = false
    ∧ (evOf (train cfgBatchX ctxNoMpi envX polX (fun _ => none) (fun _ => ∅) 0
        sZero)).filter isSaveEvent = [] :=
  ⟨rfl, noPersistenceWithoutMpi cfgBatchX ctxNoMpi envX polX (fun _ => none)
    (fun _ => ∅) 0 sZero rfl⟩
